import Mathlib

/-!
Shallow embedding of the progressive `.DS_Store` scanner core
(`src/lib.rs`, `src/cache.rs`): the directory cache, the session
registry, the persistent work queue, the found-file log, the
scheduler's batch classification and cancellation path, and the
per-directory prober.  SQL tables are embedded as Lean lists of row
structures; SQLite upsert / insert-or-ignore statements become
explicit list operations; `Utc::now()` is passed in as an explicit
`now : Int` argument at the call sites where the source reads the
clock.
-/

namespace DDS

/-- Mirror of `cache.rs` `DirectoryState` and of a `directory_cache`
table row (the struct has exactly the columns of the table). -/
structure DirectoryState where
  path : String
  last_searched_at : Int
  search_completed : Bool
  ds_store_found : Bool
  ds_store_deleted : Bool
  error_message : Option String
deriving DecidableEq, Repr

/-- Mirror of `cache.rs` `DirectoryStatus`. -/
inductive DirectoryStatus where
  | NotCached
  | Incomplete
  | Stale
  | Fresh
deriving DecidableEq, Repr

/-- Mirror of `cache.rs` `WorkItem` (as returned by `peek_work_batch`). -/
structure WorkItem where
  id : Option Int
  path : String
  discovered_at : Int
  priority : Int
  session_id : String
deriving DecidableEq, Repr

/-- A row of the `work_queue` table: `id INTEGER PRIMARY KEY AUTOINCREMENT,
path, discovered_at, priority, session_id, UNIQUE(path, session_id)`. -/
structure QueueRow where
  id : Int
  path : String
  discovered_at : Int
  priority : Int
  session_id : String
deriving DecidableEq, Repr

/-- Mirror of `cache.rs` `SearchSessionStatus`. -/
inductive SessionStatus where
  | Active
  | Completed
  | Interrupted
  | Failed
deriving DecidableEq, Repr

/-- Mirror of `cache.rs` `SearchSession` and of a `search_sessions` table row. -/
structure SessionRow where
  session_id : String
  root_path : String
  started_at : Int
  completed_at : Option Int
  is_recursive : Bool
  is_dry_run : Bool
  status : SessionStatus
deriving DecidableEq, Repr

/-- A row of the `found_files` table (`UNIQUE(session_id, file_path)`;
the autoincrement id column carries no information that the code ever
reads, so it is omitted). -/
structure FoundRow where
  session_id : String
  file_path : String
  discovered_at : Int
deriving DecidableEq, Repr

/-- The four durable tables, plus the autoincrement counter of the
`work_queue` table. -/
structure Db where
  directory_cache : List DirectoryState
  work_queue : List QueueRow
  next_queue_id : Int
  search_sessions : List SessionRow
  found_files : List FoundRow
deriving DecidableEq, Repr

/-- Mirror of `cache.rs` `struct Cache`: the pool (db), the in-memory
hot set `fresh_complete_dirs`, the freshness window, the force-refresh
flag and the current session. -/
structure Cache where
  db : Db
  fresh_complete_dirs : List String
  window_hours : Nat
  force_refresh : Bool
  current_session : Option SessionRow
deriving DecidableEq, Repr

/-- Largest `i64` value, used by the overflow clamps in the source. -/
def i64Max : Int := 2 ^ 63 - 1

/-- `i64::try_from(window_hours).unwrap_or(i64::MAX).saturating_mul(3600)`:
the window in seconds, clamped at `i64::MAX`. -/
def windowSeconds (w : Nat) : Int := min (min (Int.ofNat w) i64Max * 3600) i64Max

/-- `Utc::now().timestamp() - windowSeconds`, the freshness cutoff the
cache computes in `should_search`, `get_directory_status`,
`load_fresh_complete_dirs` and `cleanup_stale_sessions`. -/
def cutoffTime (now : Int) (w : Nat) : Int := now - windowSeconds w

/-- `SELECT ... FROM directory_cache WHERE path = ?` — first row with
the given path (the path is the primary key, so at most one exists in
well-formed states). -/
def dcLookup (t : List DirectoryState) (p : String) : Option DirectoryState :=
  t.find? (fun r => r.path == p)

/-- `INSERT ... ON CONFLICT(path) DO UPDATE` against `directory_cache`:
if a row with the path exists, rewrite every such row with `upd`
(at most one exists in well-formed states); otherwise append `fresh`. -/
def upsertRow (t : List DirectoryState) (p : String) (fresh : DirectoryState)
    (upd : DirectoryState → DirectoryState) : List DirectoryState :=
  if t.any (fun r => r.path == p) then
    t.map (fun r => if r.path == p then upd r else r)
  else t ++ [fresh]

/-- `HashSet::insert` on the hot set (membership semantics). -/
def insertStr (l : List String) (p : String) : List String :=
  if l.contains p then l else p :: l

/-- `HashSet::remove` on the hot set. -/
def removeStr (l : List String) (p : String) : List String :=
  l.filter (fun q => !(q == p))

/-- `Cache::mark_searching`: upsert `search_completed = FALSE` with a
fresh timestamp (other columns untouched on conflict, defaults on
insert), then remove the path from the hot set. -/
def mark_searching (c : Cache) (now : Int) (p : String) : Cache :=
  { c with
    db := { c.db with
      directory_cache := upsertRow c.db.directory_cache p
        { path := p, last_searched_at := now, search_completed := false,
          ds_store_found := false, ds_store_deleted := false, error_message := none }
        (fun r => { r with last_searched_at := now, search_completed := false }) },
    fresh_complete_dirs := removeStr c.fresh_complete_dirs p }

/-- `Cache::mark_completed`: upsert `search_completed = TRUE`,
`ds_store_found`, `ds_store_deleted`, and `error_message = NULL`, then
insert the path into the hot set. -/
def mark_completed (c : Cache) (now : Int) (p : String)
    (ds_store_found ds_store_deleted : Bool) : Cache :=
  { c with
    db := { c.db with
      directory_cache := upsertRow c.db.directory_cache p
        { path := p, last_searched_at := now, search_completed := true,
          ds_store_found := ds_store_found, ds_store_deleted := ds_store_deleted,
          error_message := none }
        (fun r => { r with
          last_searched_at := now,
          search_completed := true,
          ds_store_found := ds_store_found,
          ds_store_deleted := ds_store_deleted,
          error_message := none }) },
    fresh_complete_dirs := insertStr c.fresh_complete_dirs p }

/-- `Cache::mark_error`: upsert `search_completed = TRUE` and the error
string (`ds_store_found` / `ds_store_deleted` untouched on conflict);
the hot set is not updated. -/
def mark_error (c : Cache) (now : Int) (p : String) (e : String) : Cache :=
  { c with
    db := { c.db with
      directory_cache := upsertRow c.db.directory_cache p
        { path := p, last_searched_at := now, search_completed := true,
          ds_store_found := false, ds_store_deleted := false, error_message := some e }
        (fun r => { r with
          last_searched_at := now,
          search_completed := true,
          error_message := some e }) } }

/-- One upsert of `Cache::mark_completed_batch`: every column is bound
from the `DirectoryState` (in particular `error_message` is bound to
the state's own value, not forced to NULL); the path joins the hot set
iff the state is completed. -/
def applyCompletedState (c : Cache) (s : DirectoryState) : Cache :=
  { c with
    db := { c.db with
      directory_cache := upsertRow c.db.directory_cache s.path s
        (fun r => { r with
          last_searched_at := s.last_searched_at,
          search_completed := s.search_completed,
          ds_store_found := s.ds_store_found,
          ds_store_deleted := s.ds_store_deleted,
          error_message := s.error_message }) },
    fresh_complete_dirs :=
      if s.search_completed then insertStr c.fresh_complete_dirs s.path
      else c.fresh_complete_dirs }

/-- `Cache::mark_completed_batch`: upsert the states in order.  The
source chunks the list into transactions of 1000 rows; chunking has no
effect on the resulting state, so the embedding folds over the list. -/
def mark_completed_batch (c : Cache) (states : List DirectoryState) : Cache :=
  states.foldl applyCompletedState c

/-- `Cache::get_directory_status`: force-refresh short-circuits to
`NotCached`; the hot set short-circuits to `Fresh`; otherwise the
`directory_cache` row decides. -/
def get_directory_status (c : Cache) (now : Int) (p : String) : DirectoryStatus :=
  if c.force_refresh then DirectoryStatus.NotCached
  else if c.fresh_complete_dirs.contains p then DirectoryStatus.Fresh
  else
    match dcLookup c.db.directory_cache p with
    | none => DirectoryStatus.NotCached
    | some row =>
      if !row.search_completed then DirectoryStatus.Incomplete
      else if row.last_searched_at ≤ cutoffTime now c.window_hours then DirectoryStatus.Stale
      else DirectoryStatus.Fresh

/-- The hot-set invariant the cache maintains (§8 of the spec): every
hot-set path has a completed `directory_cache` row newer than the
cutoff.  Stated as a boolean so concrete instances evaluate. -/
def hotSetInvariantB (c : Cache) (now : Int) : Bool :=
  c.fresh_complete_dirs.all fun q =>
    match dcLookup c.db.directory_cache q with
    | none => false
    | some r => r.search_completed && decide (cutoffTime now c.window_hours < r.last_searched_at)

/-- `Cache::validate_integrity` rewrites a violating row
(`ds_store_deleted = TRUE AND ds_store_found = FALSE`) to
`ds_store_deleted = FALSE` and leaves every other row alone. -/
def fixRow (r : DirectoryState) : DirectoryState :=
  if r.ds_store_deleted && !r.ds_store_found then { r with ds_store_deleted := false } else r

/-- `Cache::validate_integrity`: fail when `PRAGMA integrity_check`
does not answer `ok`; otherwise count the rows with
`ds_store_deleted = TRUE AND ds_store_found = FALSE` and, when any
exist, run the repairing UPDATE. -/
def validate_integrity (c : Cache) (integrity_result : String) : Except String Cache :=
  if integrity_result ≠ "ok" then
    Except.error ("Database integrity check failed: " ++ integrity_result)
  else
    let bad := (c.db.directory_cache.filter
      (fun r => r.ds_store_deleted && !r.ds_store_found)).length
    if bad > 0 then
      Except.ok { c with
        db := { c.db with directory_cache := c.db.directory_cache.map fixRow } }
    else Except.ok c

/-- `Cache::enqueue_work`: `INSERT OR IGNORE INTO work_queue` keyed by
`UNIQUE(path, session_id)`; a fresh row takes the next autoincrement id. -/
def enqueue_work (db : Db) (now : Int) (session_id : String) (p : String)
    (priority : Int) : Db :=
  if db.work_queue.any (fun r => r.path == p && r.session_id == session_id) then db
  else
    { db with
      work_queue := db.work_queue ++
        [{ id := db.next_queue_id, path := p, discovered_at := now,
           priority := priority, session_id := session_id }],
      next_queue_id := db.next_queue_id + 1 }

/-- `Cache::enqueue_work_batch`: the transactional fold of `enqueue_work`. -/
def enqueue_work_batch (db : Db) (now : Int) (session_id : String)
    (paths : List String) (priority : Int) : Db :=
  paths.foldl (fun db p => enqueue_work db now session_id p priority) db

/-- `ORDER BY priority DESC, id ASC` of `peek_work_batch`. -/
def queueOrder (a b : QueueRow) : Prop :=
  b.priority < a.priority ∨ (a.priority = b.priority ∧ a.id ≤ b.id)

instance : DecidableRel queueOrder := fun a b => by
  unfold queueOrder; infer_instance

/-- `Cache::peek_work_batch`: the first `n` queue rows of the session in
`priority DESC, id ASC` order, converted to `WorkItem`s without
removing anything. -/
def peek_work_batch (db : Db) (session_id : String) (n : Nat) : List WorkItem :=
  ((((db.work_queue.filter (fun r => r.session_id == session_id)).insertionSort
      queueOrder).take n).map
    (fun r => { id := some r.id, path := r.path, discovered_at := r.discovered_at,
                priority := r.priority, session_id := session_id }))

/-- `Cache::remove_work_items`: early return on an empty id list,
otherwise one `DELETE FROM work_queue WHERE id IN (...)`. -/
def remove_work_items (db : Db) (item_ids : List Int) : Db :=
  if item_ids.isEmpty then db
  else { db with work_queue := db.work_queue.filter (fun r => !(item_ids.contains r.id)) }

/-- `Cache::get_work_count`: `SELECT COUNT(*) FROM work_queue WHERE session_id = ?`. -/
def get_work_count (db : Db) (session_id : String) : Nat :=
  (db.work_queue.filter (fun r => r.session_id == session_id)).length

/-- One `INSERT OR IGNORE INTO found_files` of `Cache::save_found_files`,
keyed by `UNIQUE(session_id, file_path)`. -/
def saveFoundStep (now : Int) (session_id : String) (db : Db) (f : String) : Db :=
  if db.found_files.any (fun r => r.session_id == session_id && r.file_path == f) then db
  else { db with found_files := db.found_files ++
    [{ session_id := session_id, file_path := f, discovered_at := now }] }

/-- `Cache::save_found_files`: the transactional fold of the per-path
insert-or-ignore. -/
def save_found_files (db : Db) (now : Int) (session_id : String)
    (files : List String) : Db :=
  files.foldl (saveFoundStep now session_id) db

/-- `Cache::complete_session`: when a current session exists, stamp its
row `completed_at = now, status = completed` and clear its work-queue
rows; in every case drop `current_session`. -/
def complete_session (c : Cache) (now : Int) : Cache :=
  match c.current_session with
  | some s =>
    { c with
      db := { c.db with
        search_sessions := c.db.search_sessions.map (fun r =>
          if r.session_id == s.session_id then
            { r with completed_at := some now, status := SessionStatus.Completed }
          else r),
        work_queue := c.db.work_queue.filter (fun r => !(r.session_id == s.session_id)) },
      current_session := none }
  | none => { c with current_session := none }

/-- `Cache::interrupt_session`: when a current session exists, set its
row's status to interrupted; queue, found-file log and
`current_session` stay untouched. -/
def interrupt_session (c : Cache) : Cache :=
  match c.current_session with
  | some s =>
    { c with
      db := { c.db with
        search_sessions := c.db.search_sessions.map (fun r =>
          if r.session_id == s.session_id then
            { r with status := SessionStatus.Interrupted }
          else r) } }
  | none => c

/-- `Cache::cleanup_session`: delete the session's work-queue rows,
found-file rows and the session row itself. -/
def cleanup_session (c : Cache) (session_id : String) : Cache :=
  { c with
    db := { c.db with
      work_queue := c.db.work_queue.filter (fun r => !(r.session_id == session_id)),
      found_files := c.db.found_files.filter (fun r => !(r.session_id == session_id)),
      search_sessions :=
        c.db.search_sessions.filter (fun r => !(r.session_id == session_id)) } }

/-- The WHERE clause of `resume_session`: interrupted rows of the exact
`(root, recursive, dry-run)` triple. -/
def matchesTriple (r : SessionRow) (root : String) (is_recursive is_dry_run : Bool) : Bool :=
  r.root_path == root && decide (r.status = SessionStatus.Interrupted) &&
    r.is_recursive == is_recursive && r.is_dry_run == is_dry_run

/-- One comparison step of the `ORDER BY started_at DESC LIMIT 1`
selection. -/
def mostRecentStep (best : Option SessionRow) (r : SessionRow) : Option SessionRow :=
  match best with
  | none => some r
  | some b => if b.started_at < r.started_at then some r else best

/-- `ORDER BY started_at DESC LIMIT 1`: the first row attaining the
maximal `started_at` (SQLite leaves the order of ties unspecified; the
embedding determinizes to the first one in table order). -/
def selectMostRecent (l : List SessionRow) : Option SessionRow :=
  l.foldl mostRecentStep none

/-- `Cache::resume_session`: pick the most recent interrupted session of
the triple; with pending work or logged found files flip it back to
active and return its id, otherwise clean it up and return none; with
no matching row, change nothing and return none. -/
def resume_session (c : Cache) (root : String) (is_recursive is_dry_run : Bool) :
    Cache × Option String :=
  match selectMostRecent
      (c.db.search_sessions.filter (fun r => matchesTriple r root is_recursive is_dry_run)) with
  | none => (c, none)
  | some row =>
    let sid := row.session_id
    let work_count := get_work_count c.db sid
    let found_files_count := (c.db.found_files.filter (fun r => r.session_id == sid)).length
    if work_count > 0 || found_files_count > 0 then
      ({ c with
         db := { c.db with
           search_sessions := c.db.search_sessions.map (fun r =>
             if r.session_id == sid then { r with status := SessionStatus.Active } else r) },
         current_session := some
           { session_id := sid, root_path := root, started_at := row.started_at,
             completed_at := none, is_recursive := is_recursive,
             is_dry_run := is_dry_run, status := SessionStatus.Active } },
       some sid)
    else
      (cleanup_session c sid, none)

/-- Mirror of `lib.rs` `Verbosity`. -/
inductive Verbosity where
  | Quiet
  | Normal
  | Verbose
deriving DecidableEq, Repr

/-- `Verbosity::new_from_bools`. -/
def new_from_bools (verbose quiet : Bool) : Verbosity :=
  match verbose, quiet with
  | true, true => Verbosity.Normal
  | true, false => Verbosity.Verbose
  | false, true => Verbosity.Quiet
  | false, false => Verbosity.Normal

/-- `Verbosity::is_quiet`. -/
def is_quiet : Verbosity → Bool
  | Verbosity.Quiet => true
  | Verbosity.Normal => false
  | Verbosity.Verbose => false

/-- `Verbosity::is_not_quiet`. -/
def is_not_quiet : Verbosity → Bool
  | Verbosity.Quiet => false
  | Verbosity.Normal => true
  | Verbosity.Verbose => true

/-- The scheduler's counters (`lib.rs` `SearchStats`); the atomics feed
human-visible stats only, so plain naturals model them. -/
structure SearchStats where
  new_searches : Nat
  resumed_searches : Nat
  skipped_cached : Nat
  found : Nat
  errors : Nat
deriving DecidableEq, Repr

/-- Accumulator of the scheduler's per-batch classification loop
(`find_ds_stores_progressive`, the loop over `potential_work_items`):
the accepted items, the collected ids, and the three counter deltas. -/
structure ClassifyResult where
  items_to_process : List WorkItem
  all_item_ids : List Int
  skipped_delta : Nat
  resumed_delta : Nat
  new_delta : Nat
deriving DecidableEq, Repr

/-- One iteration of the classification loop: push the item's id (when
present), then branch on `get_directory_status` — `Fresh` bumps the
skipped counter and drops the item, `Incomplete` bumps resumed and
accepts it, `NotCached`/`Stale` bump new and accept it. -/
def classify_step (c : Cache) (now : Int) (acc : ClassifyResult) (it : WorkItem) :
    ClassifyResult :=
  let acc :=
    match it.id with
    | some i => { acc with all_item_ids := acc.all_item_ids ++ [i] }
    | none => acc
  match get_directory_status c now it.path with
  | DirectoryStatus.Fresh =>
    { acc with skipped_delta := acc.skipped_delta + 1 }
  | DirectoryStatus.Incomplete =>
    { acc with
      resumed_delta := acc.resumed_delta + 1,
      items_to_process := acc.items_to_process ++ [it] }
  | DirectoryStatus.NotCached =>
    { acc with
      new_delta := acc.new_delta + 1,
      items_to_process := acc.items_to_process ++ [it] }
  | DirectoryStatus.Stale =>
    { acc with
      new_delta := acc.new_delta + 1,
      items_to_process := acc.items_to_process ++ [it] }

/-- The whole classification loop over a peeked batch.  The loop only
reads the cache, so every item is classified against the same state. -/
def classify_batch (c : Cache) (now : Int) (items : List WorkItem) : ClassifyResult :=
  items.foldl (classify_step c now)
    { items_to_process := [], all_item_ids := [], skipped_delta := 0,
      resumed_delta := 0, new_delta := 0 }

/-- Steps 2–4 of the scheduler's main loop: peek a batch, classify it,
and — when any ids were collected — remove them all from the queue with
the single `remove_work_items` call. -/
def scheduler_classify_and_remove (c : Cache) (now : Int) (session_id : String)
    (batch_size : Nat) : ClassifyResult × Db :=
  let items := peek_work_batch c.db session_id batch_size
  let res := classify_batch c now items
  let db := if res.all_item_ids.isEmpty then c.db else remove_work_items c.db res.all_item_ids
  (res, db)

/-- The cancellation path's flush of the buffered completed-directory
states (skipped on an empty buffer; the dry-run variant clears
`ds_store_deleted` on every state first). -/
def cancel_flush (c : Cache) (dry_run : Bool)
    (completed_buf : List DirectoryState) : Cache :=
  if completed_buf.isEmpty then c
  else
    mark_completed_batch c
      (if dry_run then completed_buf.map (fun s => { s with ds_store_deleted := false })
       else completed_buf)

/-- The cancellation path's save of the accumulated found files to the
session's log (skipped on an empty buffer). -/
def cancel_save (c : Cache) (now : Int) (session_id : String)
    (found_buf : List String) : Cache :=
  if found_buf.isEmpty then c
  else { c with db := save_found_files c.db now session_id found_buf }

/-- The scheduler's cancellation path (`find_ds_stores_progressive`,
`cancellation_token.is_cancelled()` branch), after the task handles
have been aborted (the aborts have no effect on the state modelled
here): flush the buffered completed-directory states, save the
accumulated found files to the session's log, then read the remaining
work count and complete the session when it is zero, interrupt it
otherwise; return the matches and stats collected so far. -/
def cancellation_path (c : Cache) (now : Int) (session_id : String) (dry_run : Bool)
    (completed_buf : List DirectoryState) (found_buf : List String)
    (stats : SearchStats) : Cache × List String × SearchStats :=
  let c1 := cancel_flush c dry_run completed_buf
  let c2 := cancel_save c1 now session_id found_buf
  let remaining := get_work_count c2.db session_id
  let c3 := if remaining = 0 then complete_session c2 now else interrupt_session c2
  (c3, found_buf, stats)

/-- `SELECT ... FROM search_sessions WHERE session_id = ?`. -/
def sLookup (t : List SessionRow) (sid : String) : Option SessionRow :=
  t.find? (fun r => r.session_id == sid)

/-- The literal fragments of the `SYSTEM_PATH_PATTERNS` regex set of
`lib.rs` (each pattern is an unanchored substring match; the only
regex metacharacters are escaped dots). -/
def systemPathFragments : List String :=
  ["/Volumes/", "/.Trash", "/System/Volumes", "/private/var/folders",
   "/.fseventsd", "/Library/Caches", "/.Spotlight-V100"]

/-- Whether the character list `pat` is an initial segment of `s`. -/
def startsWithList : List Char → List Char → Bool
  | _, [] => true
  | [], _ :: _ => false
  | a :: srest, b :: prest => a == b && startsWithList srest prest

/-- Whether `pat` occurs contiguously anywhere in `s`. -/
def hasSubList : List Char → List Char → Bool
  | [], pat => startsWithList [] pat
  | a :: rest, pat => startsWithList (a :: rest) pat || hasSubList rest pat

/-- Substring occurrence on strings (each regex of the source's set is
an unanchored substring match once its escaped dots are read
literally). -/
def hasSub (s pat : String) : Bool := hasSubList s.data pat.data

/-- `is_system_path` of `lib.rs`. -/
def is_system_path (p : String) : Bool :=
  systemPathFragments.any (fun pat => hasSub p pat)

/-- The file type `entry.file_type()` reports for one directory entry. -/
inductive FileKind where
  | dir
  | file
  | symlink
deriving DecidableEq, Repr

/-- One successfully read directory entry of the probe's read loop:
its path, the result of `entry.file_type()` (`none` models the `else
continue` on error), the result of `symlink_metadata` on the entry
(`none` models an error, which skips queueing), and `path.file_name()`. -/
structure EntrySpec where
  path : String
  file_type : Option FileKind
  symlink_meta_is_symlink : Option Bool
  file_name : Option String
deriving DecidableEq, Repr

/-- One `next_entry()` outcome: an entry, or the I/O error that the
source propagates with `?`. -/
inductive EntryRes where
  | ok (e : EntrySpec)
  | fail (msg : String)
deriving DecidableEq, Repr

deriving instance DecidableEq for Except

/-- The per-directory filesystem behaviour a probe observes: the
`metadata` call (`Ok is_dir` / `Err msg`), the `symlink_metadata` call
on the directory itself, and the `read_dir` call with the subsequent
`next_entry()` stream. -/
structure DirFs where
  metadata : Except String Bool
  symlink_meta : Except String Bool
  read_dir : Except String (List EntryRes)
deriving DecidableEq, Repr

/-- In-loop accumulator of the probe's entry loop. -/
structure LoopAcc where
  subdirs_to_queue : List String
  found : List String
  found_incr : Nat
  ds_store_found : Bool
deriving DecidableEq, Repr

/-- The body of the probe's entry loop for one entry: directories (in
recursive mode, when not symlinks and not system paths) join the local
subdirectory list; regular files named `.DS_Store` join the shared
found buffer and bump the found counter. -/
def stepEntry (recursive : Bool) (acc : LoopAcc) (e : EntrySpec) : LoopAcc :=
  match e.file_type with
  | none => acc
  | some FileKind.dir =>
    if recursive then
      match e.symlink_meta_is_symlink with
      | some false =>
        if is_system_path e.path then acc
        else { acc with subdirs_to_queue := acc.subdirs_to_queue ++ [e.path] }
      | _ => acc
    else acc
  | some FileKind.file =>
    match e.file_name with
    | some name =>
      if name == ".DS_Store" then
        { acc with
          found := acc.found ++ [e.path],
          found_incr := acc.found_incr + 1,
          ds_store_found := true }
      else acc
    | none => acc
  | some FileKind.symlink => acc

/-- The probe's `while let Some(entry) = entries.next_entry().await?`
loop: entries are folded in order until the list ends or a read fails;
a failure surfaces as `some msg` together with whatever had accumulated
by then (those pushes to the shared buffers have already happened). -/
def runEntries (recursive : Bool) : List EntryRes → LoopAcc → LoopAcc × Option String
  | [], acc => (acc, none)
  | EntryRes.fail m :: _, acc => (acc, some m)
  | EntryRes.ok e :: rest, acc => runEntries recursive rest (stepEntry recursive acc e)

/-- Everything a probe task contributes to the shared state: the
completion row it buffered (if it got that far), the subdirectory list
it posted, the found files it pushed, the counter bumps, and its
`Result` value (discarded by the driver). -/
structure ProbeOut where
  buffered : Option DirectoryState
  posted_subdirs : List String
  found : List String
  found_incr : Nat
  error_incr : Nat
  result : Except String Unit
deriving DecidableEq, Repr

/-- `process_directory_with_persistent_queue` of `lib.rs`: the
pre-flight checks (system path, metadata, symlink), then the entry
loop.  A mid-iteration `next_entry` failure propagates with `?` before
the subdirectory post and before the completion row is buffered; a
`read_dir` open failure instead records the error string, bumps the
error counter and buffers the row with `search_completed = false`. -/
def process_directory (now : Int) (dir : String) (fsd : DirFs) (recursive : Bool) :
    ProbeOut :=
  if is_system_path dir then
    { buffered := some
        { path := dir, last_searched_at := now, search_completed := true,
          ds_store_found := false, ds_store_deleted := false,
          error_message := some ("Skipped system/problematic directory") },
      posted_subdirs := [], found := [], found_incr := 0, error_incr := 0,
      result := Except.ok () }
  else
    match fsd.metadata with
    | Except.error e =>
      { buffered := some
          { path := dir, last_searched_at := now, search_completed := true,
            ds_store_found := false, ds_store_deleted := false,
            error_message := some ("Cannot access directory: " ++ e) },
        posted_subdirs := [], found := [], found_incr := 0, error_incr := 1,
        result := Except.ok () }
    | Except.ok is_dir =>
      if !is_dir then
        { buffered := some
            { path := dir, last_searched_at := now, search_completed := true,
              ds_store_found := false, ds_store_deleted := false,
              error_message := some ("Not a directory") },
          posted_subdirs := [], found := [], found_incr := 0, error_incr := 0,
          result := Except.ok () }
      else if fsd.symlink_meta = Except.ok true then
        { buffered := some
            { path := dir, last_searched_at := now, search_completed := true,
              ds_store_found := false, ds_store_deleted := false,
              error_message := some ("Skipped symlink") },
          posted_subdirs := [], found := [], found_incr := 0, error_incr := 0,
          result := Except.ok () }
      else
        match fsd.read_dir with
        | Except.error e =>
          { buffered := some
              { path := dir, last_searched_at := now, search_completed := false,
                ds_store_found := false, ds_store_deleted := false,
                error_message := some ("Failed to read directory: " ++ e) },
            posted_subdirs := [], found := [], found_incr := 0, error_incr := 1,
            result := Except.ok () }
        | Except.ok entries =>
          match runEntries recursive entries
              { subdirs_to_queue := [], found := [], found_incr := 0,
                ds_store_found := false } with
          | (acc, some m) =>
            { buffered := none, posted_subdirs := [], found := acc.found,
              found_incr := acc.found_incr, error_incr := 0,
              result := Except.error m }
          | (acc, none) =>
            { buffered := some
                { path := dir, last_searched_at := now, search_completed := true,
                  ds_store_found := acc.ds_store_found, ds_store_deleted := false,
                  error_message := none },
              posted_subdirs := acc.subdirs_to_queue, found := acc.found,
              found_incr := acc.found_incr, error_incr := 0,
              result := Except.ok () }

/-!  Helper lemmas about keyed list lookups and updates. -/

lemma find?_map_upd {α : Type} (key : α → String) (k : String) (f : α → α)
    (hf : ∀ x, key (f x) = key x) (t : List α) :
    (t.map fun r => if key r == k then f r else r).find? (fun r => key r == k)
      = (t.find? (fun r => key r == k)).map f := by
  induction t with
  | nil => rfl
  | cons hd tl ih =>
    rw [List.map_cons]
    by_cases h : (key hd == k) = true
    · have hfd : (key (f hd) == k) = true := by rw [hf]; exact h
      rw [if_pos h,
        @List.find?_cons_of_pos α (fun r => key r == k) (f hd) _ hfd,
        @List.find?_cons_of_pos α (fun r => key r == k) hd _ h]
      rfl
    · rw [if_neg h,
        @List.find?_cons_of_neg α (fun r => key r == k) hd _ h,
        @List.find?_cons_of_neg α (fun r => key r == k) hd _ h, ih]

lemma find?_map_upd_ne {α : Type} (key : α → String) (k q : String) (f : α → α)
    (hf : ∀ x, key (f x) = key x) (hq : q ≠ k) (t : List α) :
    (t.map fun r => if key r == k then f r else r).find? (fun r => key r == q)
      = t.find? (fun r => key r == q) := by
  induction t with
  | nil => rfl
  | cons hd tl ih =>
    rw [List.map_cons]
    by_cases h : (key hd == k) = true
    · have hk : key hd = k := by simpa using h
      have h1 : ¬ (key (f hd) == q) = true := by simp [hf, hk, Ne.symm hq]
      have h2 : ¬ (key hd == q) = true := by simp [hk, Ne.symm hq]
      rw [if_pos h,
        @List.find?_cons_of_neg α (fun r => key r == q) (f hd) _ h1,
        @List.find?_cons_of_neg α (fun r => key r == q) hd _ h2, ih]
    · rw [if_neg h]
      by_cases h2 : (key hd == q) = true
      · rw [@List.find?_cons_of_pos α (fun r => key r == q) hd _ h2,
          @List.find?_cons_of_pos α (fun r => key r == q) hd _ h2]
      · rw [@List.find?_cons_of_neg α (fun r => key r == q) hd _ h2,
          @List.find?_cons_of_neg α (fun r => key r == q) hd _ h2, ih]

lemma find?_key_of_mem_nodup {α : Type} (key : α → String) (t : List α)
    (hnd : (t.map key).Nodup) (r : α) (hr : r ∈ t) :
    t.find? (fun x => key x == key r) = some r := by
  induction t with
  | nil => cases hr
  | cons hd tl ih =>
    rw [List.map_cons, List.nodup_cons] at hnd
    rcases List.mem_cons.mp hr with h | h
    · subst h
      exact @List.find?_cons_of_pos _ (fun x => key x == key r) r _ (by simp)
    · have hne : ¬ (key hd == key r) = true := by
        simp only [beq_iff_eq]
        intro he
        exact hnd.1 (he ▸ List.mem_map_of_mem key h)
      rw [@List.find?_cons_of_neg _ (fun x => key x == key r) hd _ hne]
      exact ih hnd.2 h

lemma dcLookup_path {t : List DirectoryState} {p : String} {r : DirectoryState}
    (h : dcLookup t p = some r) : r.path = p := by
  have := List.find?_some h
  simpa using this

lemma dcLookup_upsert_self (t : List DirectoryState) (p : String)
    (fresh : DirectoryState) (upd : DirectoryState → DirectoryState)
    (hf : fresh.path = p) (hupd : ∀ x, (upd x).path = x.path) :
    dcLookup (upsertRow t p fresh upd) p
      = some (match dcLookup t p with | some r => upd r | none => fresh) := by
  unfold upsertRow dcLookup
  by_cases hany : (t.any (fun r => r.path == p)) = true
  · rw [if_pos hany, find?_map_upd (fun r => r.path) p upd hupd t]
    obtain ⟨x, hx, hxp⟩ := List.any_eq_true.mp hany
    cases hfind : t.find? (fun r => r.path == p) with
    | none => exact absurd hxp (by simpa using List.find?_eq_none.mp hfind x hx)
    | some r => rfl
  · rw [if_neg hany, List.find?_append]
    have hnone : t.find? (fun r => r.path == p) = none :=
      List.find?_eq_none.mpr (fun x hx hpx => hany (List.any_eq_true.mpr ⟨x, hx, hpx⟩))
    rw [hnone]
    simp [List.find?, hf]

lemma dcLookup_upsert_ne (t : List DirectoryState) (p q : String)
    (fresh : DirectoryState) (upd : DirectoryState → DirectoryState)
    (hf : fresh.path = p) (hupd : ∀ x, (upd x).path = x.path) (hq : q ≠ p) :
    dcLookup (upsertRow t p fresh upd) q = dcLookup t q := by
  unfold upsertRow dcLookup
  by_cases hany : (t.any (fun r => r.path == p)) = true
  · rw [if_pos hany]
    exact find?_map_upd_ne (fun r => r.path) p q upd hupd hq t
  · rw [if_neg hany, List.find?_append]
    have hpq : (p == q) = false := by simp [Ne.symm hq]
    have h1 : List.find? (fun r => r.path == q) [fresh] = none := by
      simp [List.find?, hf, hpq]
    rw [h1]
    simp

lemma insertStr_mem (l : List String) (p : String) : p ∈ insertStr l p := by
  unfold insertStr
  by_cases h : l.contains p = true
  · rw [if_pos h]; simpa using h
  · rw [if_neg h]; exact List.mem_cons_self p l

lemma mark_completed_batch_cons (c : Cache) (s : DirectoryState)
    (tl : List DirectoryState) :
    mark_completed_batch c (s :: tl) = mark_completed_batch (applyCompletedState c s) tl :=
  rfl

lemma mark_completed_batch_frame (c : Cache) (states : List DirectoryState) :
    (mark_completed_batch c states).db.work_queue = c.db.work_queue ∧
    (mark_completed_batch c states).db.search_sessions = c.db.search_sessions ∧
    (mark_completed_batch c states).db.found_files = c.db.found_files ∧
    (mark_completed_batch c states).db.next_queue_id = c.db.next_queue_id ∧
    (mark_completed_batch c states).current_session = c.current_session ∧
    (mark_completed_batch c states).window_hours = c.window_hours ∧
    (mark_completed_batch c states).force_refresh = c.force_refresh := by
  induction states generalizing c with
  | nil => exact ⟨rfl, rfl, rfl, rfl, rfl, rfl, rfl⟩
  | cons s tl ih => exact ih (applyCompletedState c s)

lemma applyCompletedState_lookup_self (c : Cache) (s : DirectoryState) :
    dcLookup (applyCompletedState c s).db.directory_cache s.path = some s := by
  have h := dcLookup_upsert_self c.db.directory_cache s.path s
    (fun r => { r with
      last_searched_at := s.last_searched_at,
      search_completed := s.search_completed,
      ds_store_found := s.ds_store_found,
      ds_store_deleted := s.ds_store_deleted,
      error_message := s.error_message }) rfl (fun x => rfl)
  cases hl : dcLookup c.db.directory_cache s.path with
  | none =>
    rw [hl] at h
    exact h
  | some r =>
    rw [hl] at h
    have hp : r.path = s.path := dcLookup_path hl
    have he : ({ r with
        last_searched_at := s.last_searched_at,
        search_completed := s.search_completed,
        ds_store_found := s.ds_store_found,
        ds_store_deleted := s.ds_store_deleted,
        error_message := s.error_message } : DirectoryState) = s := by
      cases s
      cases r
      simp_all
    have h2 : dcLookup (applyCompletedState c s).db.directory_cache s.path
        = some { r with
          last_searched_at := s.last_searched_at,
          search_completed := s.search_completed,
          ds_store_found := s.ds_store_found,
          ds_store_deleted := s.ds_store_deleted,
          error_message := s.error_message } := h
    rw [he] at h2
    exact h2

lemma mark_completed_batch_lookup_not_mem (c : Cache) (states : List DirectoryState)
    (p : String) (hp : p ∉ states.map (fun s => s.path)) :
    dcLookup (mark_completed_batch c states).db.directory_cache p
      = dcLookup c.db.directory_cache p := by
  induction states generalizing c with
  | nil => rfl
  | cons s tl ih =>
    rw [List.map_cons] at hp
    have hps : p ≠ s.path := fun he => hp (List.mem_cons.mpr (Or.inl he))
    have htl : p ∉ tl.map (fun s => s.path) := fun hm => hp (List.mem_cons.mpr (Or.inr hm))
    rw [mark_completed_batch_cons, ih (applyCompletedState c s) htl]
    exact dcLookup_upsert_ne c.db.directory_cache s.path p s _ rfl (fun x => rfl) hps

lemma mark_completed_batch_lookup_mem (c : Cache) (states : List DirectoryState)
    (hnd : (states.map (fun s => s.path)).Nodup) :
    ∀ st ∈ states,
      dcLookup (mark_completed_batch c states).db.directory_cache st.path = some st := by
  induction states generalizing c with
  | nil => intro st h; cases h
  | cons s tl ih =>
    intro st hst
    rw [List.map_cons, List.nodup_cons] at hnd
    rcases List.mem_cons.mp hst with h | h
    · subst h
      rw [mark_completed_batch_cons,
        mark_completed_batch_lookup_not_mem (applyCompletedState c st) tl st.path hnd.1]
      exact applyCompletedState_lookup_self c st
    · exact ih (applyCompletedState c s) hnd.2 st h

lemma saveFoundStep_frame (now : Int) (sid : String) (db : Db) (f : String) :
    (saveFoundStep now sid db f).directory_cache = db.directory_cache ∧
    (saveFoundStep now sid db f).work_queue = db.work_queue ∧
    (saveFoundStep now sid db f).search_sessions = db.search_sessions ∧
    (saveFoundStep now sid db f).next_queue_id = db.next_queue_id := by
  unfold saveFoundStep
  split <;> exact ⟨rfl, rfl, rfl, rfl⟩

lemma save_found_files_frame (db : Db) (now : Int) (sid : String) (files : List String) :
    (save_found_files db now sid files).directory_cache = db.directory_cache ∧
    (save_found_files db now sid files).work_queue = db.work_queue ∧
    (save_found_files db now sid files).search_sessions = db.search_sessions ∧
    (save_found_files db now sid files).next_queue_id = db.next_queue_id := by
  induction files generalizing db with
  | nil => exact ⟨rfl, rfl, rfl, rfl⟩
  | cons f tl ih =>
    have h1 := ih (saveFoundStep now sid db f)
    have h2 := saveFoundStep_frame now sid db f
    exact ⟨h1.1.trans h2.1, h1.2.1.trans h2.2.1, h1.2.2.1.trans h2.2.2.1,
      h1.2.2.2.trans h2.2.2.2⟩

lemma saveFoundStep_mono (now : Int) (sid : String) (db : Db) (f : String)
    (r : FoundRow) (h : r ∈ db.found_files) :
    r ∈ (saveFoundStep now sid db f).found_files := by
  unfold saveFoundStep
  split
  · exact h
  · exact List.mem_append.mpr (Or.inl h)

lemma save_found_files_mono (db : Db) (now : Int) (sid : String) (files : List String)
    (r : FoundRow) (h : r ∈ db.found_files) :
    r ∈ (save_found_files db now sid files).found_files := by
  induction files generalizing db with
  | nil => exact h
  | cons f tl ih => exact ih (saveFoundStep now sid db f) (saveFoundStep_mono now sid db f r h)

lemma saveFoundStep_has (now : Int) (sid : String) (db : Db) (f : String) :
    ∃ r ∈ (saveFoundStep now sid db f).found_files,
      r.session_id = sid ∧ r.file_path = f := by
  unfold saveFoundStep
  by_cases h : (db.found_files.any (fun r => r.session_id == sid && r.file_path == f)) = true
  · rw [if_pos h]
    obtain ⟨x, hx, hxp⟩ := List.any_eq_true.mp h
    rw [Bool.and_eq_true] at hxp
    exact ⟨x, hx, by simpa using hxp.1, by simpa using hxp.2⟩
  · rw [if_neg h]
    exact ⟨{ session_id := sid, file_path := f, discovered_at := now },
      List.mem_append.mpr (Or.inr (List.mem_singleton.mpr rfl)), rfl, rfl⟩

lemma save_found_files_has (db : Db) (now : Int) (sid : String) (files : List String) :
    ∀ f ∈ files, ∃ r ∈ (save_found_files db now sid files).found_files,
      r.session_id = sid ∧ r.file_path = f := by
  induction files generalizing db with
  | nil => intro f h; cases h
  | cons g tl ih =>
    intro f hf
    rcases List.mem_cons.mp hf with h | h
    · subst h
      obtain ⟨r, hr, h1, h2⟩ := saveFoundStep_has now sid db f
      exact ⟨r, save_found_files_mono (saveFoundStep now sid db f) now sid tl r hr, h1, h2⟩
    · exact ih (saveFoundStep now sid db g) f h

lemma filter_map_upd_sublist {α : Type} (P : α → Bool) (g : α → α) (t : List α)
    (h : ∀ r, P (g r) = true → g r = r) :
    List.Sublist ((t.map g).filter P) (t.filter P) := by
  induction t with
  | nil => exact List.Sublist.refl _
  | cons hd tl ih =>
    rw [List.map_cons, List.filter_cons, List.filter_cons]
    by_cases hp : P (g hd) = true
    · have he : g hd = hd := h hd hp
      rw [he] at hp ⊢
      rw [if_pos hp, if_pos hp]
      exact ih.cons₂ hd
    · rw [if_neg hp]
      by_cases hq : P hd = true
      · rw [if_pos hq]
        exact ih.cons hd
      · rw [if_neg hq]
        exact ih

lemma mostRecentStep_some (b : Option SessionRow) (r : SessionRow) :
    ∃ x, mostRecentStep b r = some x := by
  cases b with
  | none => exact ⟨r, rfl⟩
  | some bb =>
    simp only [mostRecentStep]
    by_cases h : bb.started_at < r.started_at
    · rw [if_pos h]; exact ⟨r, rfl⟩
    · rw [if_neg h]; exact ⟨bb, rfl⟩

lemma foldl_mostRecentStep_ne_none (l : List SessionRow) :
    ∀ x, l.foldl mostRecentStep (some x) ≠ none := by
  induction l with
  | nil => intro x h; cases h
  | cons hd tl ih =>
    intro x
    rw [List.foldl_cons]
    obtain ⟨y, hy⟩ := mostRecentStep_some (some x) hd
    rw [hy]
    exact ih y

lemma selectMostRecent_none (l : List SessionRow) (h : selectMostRecent l = none) :
    l = [] := by
  cases l with
  | nil => rfl
  | cons hd tl =>
    exfalso
    unfold selectMostRecent at h
    rw [List.foldl_cons] at h
    exact foldl_mostRecentStep_ne_none tl hd h

lemma foldl_mostRecentStep_mem (l : List SessionRow) :
    ∀ b r, l.foldl mostRecentStep b = some r → r ∈ l ∨ b = some r := by
  induction l with
  | nil => intro b r h; exact Or.inr h
  | cons hd tl ih =>
    intro b r h
    rw [List.foldl_cons] at h
    rcases ih (mostRecentStep b hd) r h with hm | hs
    · exact Or.inl (List.mem_cons.mpr (Or.inr hm))
    · cases b with
      | none =>
        simp only [mostRecentStep] at hs
        cases hs
        exact Or.inl (List.mem_cons.mpr (Or.inl rfl))
      | some bb =>
        simp only [mostRecentStep] at hs
        by_cases hlt : bb.started_at < hd.started_at
        · rw [if_pos hlt] at hs
          cases hs
          exact Or.inl (List.mem_cons.mpr (Or.inl rfl))
        · rw [if_neg hlt] at hs
          exact Or.inr hs

lemma selectMostRecent_mem (l : List SessionRow) (r : SessionRow)
    (h : selectMostRecent l = some r) : r ∈ l := by
  rcases foldl_mostRecentStep_mem l none r h with hm | hs
  · exact hm
  · cases hs

lemma foldl_mostRecentStep_max (l : List SessionRow) :
    ∀ b r, l.foldl mostRecentStep b = some r →
      (∀ x ∈ l, x.started_at ≤ r.started_at) ∧
      (∀ y, b = some y → y.started_at ≤ r.started_at) := by
  induction l with
  | nil =>
    intro b r h
    refine ⟨fun x hx => absurd hx (List.not_mem_nil x), fun y hy => ?_⟩
    rw [hy] at h
    cases h
    exact le_refl _
  | cons hd tl ih =>
    intro b r h
    rw [List.foldl_cons] at h
    obtain ⟨htl, hstep⟩ := ih (mostRecentStep b hd) r h
    have hhd : hd.started_at ≤ r.started_at := by
      cases b with
      | none => exact hstep hd rfl
      | some bb =>
        by_cases hlt : bb.started_at < hd.started_at
        · exact hstep hd (by simp only [mostRecentStep]; rw [if_pos hlt])
        · exact le_trans (le_of_not_lt hlt)
            (hstep bb (by simp only [mostRecentStep]; rw [if_neg hlt]))
    refine ⟨fun x hx => ?_, fun y hy => ?_⟩
    · rcases List.mem_cons.mp hx with he | hm
      · rw [he]; exact hhd
      · exact htl x hm
    · cases b with
      | none => cases hy
      | some bb =>
        cases hy
        by_cases hlt : y.started_at < hd.started_at
        · exact le_trans (le_of_lt hlt) hhd
        · exact hstep y (by simp only [mostRecentStep]; rw [if_neg hlt])

lemma selectMostRecent_max (l : List SessionRow) (r : SessionRow)
    (h : selectMostRecent l = some r) : ∀ x ∈ l, x.started_at ≤ r.started_at :=
  (foldl_mostRecentStep_max l none r h).1

lemma windowSeconds_eq (w : Nat) (hw : Int.ofNat w * 3600 ≤ i64Max) :
    windowSeconds w = Int.ofNat w * 3600 := by
  unfold windowSeconds
  have h0 : (0 : Int) ≤ Int.ofNat w := Int.ofNat_nonneg w
  have h1 : Int.ofNat w ≤ Int.ofNat w * 3600 := by nlinarith
  rw [min_eq_left (le_trans h1 hw), min_eq_left hw]

lemma classify_batch_go (c : Cache) (now : Int) (items : List WorkItem) :
    ∀ acc : ClassifyResult,
      items.foldl (classify_step c now) acc =
        { items_to_process := acc.items_to_process ++ items.filter
            (fun it => !(decide (get_directory_status c now it.path = DirectoryStatus.Fresh))),
          all_item_ids := acc.all_item_ids ++ items.filterMap (fun it => it.id),
          skipped_delta := acc.skipped_delta + (items.filter
            (fun it => decide (get_directory_status c now it.path = DirectoryStatus.Fresh))).length,
          resumed_delta := acc.resumed_delta + (items.filter
            (fun it => decide (get_directory_status c now it.path = DirectoryStatus.Incomplete))).length,
          new_delta := acc.new_delta + (items.filter
            (fun it => decide (get_directory_status c now it.path = DirectoryStatus.NotCached) ||
              decide (get_directory_status c now it.path = DirectoryStatus.Stale))).length } := by
  induction items with
  | nil => intro acc; simp
  | cons it tl ih =>
    intro acc
    rw [List.foldl_cons, ih]
    cases hid : it.id <;> cases hst : get_directory_status c now it.path <;>
      simp [classify_step, hid, hst, List.filter_cons, List.filterMap_cons] <;> omega

lemma classify_batch_spec (c : Cache) (now : Int) (items : List WorkItem) :
    classify_batch c now items =
      { items_to_process := items.filter
          (fun it => !(decide (get_directory_status c now it.path = DirectoryStatus.Fresh))),
        all_item_ids := items.filterMap (fun it => it.id),
        skipped_delta := (items.filter
          (fun it => decide (get_directory_status c now it.path = DirectoryStatus.Fresh))).length,
        resumed_delta := (items.filter
          (fun it => decide (get_directory_status c now it.path = DirectoryStatus.Incomplete))).length,
        new_delta := (items.filter
          (fun it => decide (get_directory_status c now it.path = DirectoryStatus.NotCached) ||
            decide (get_directory_status c now it.path = DirectoryStatus.Stale))).length } := by
  unfold classify_batch
  rw [classify_batch_go]
  simp

lemma fixRow_sound (x : DirectoryState) :
    (fixRow x).ds_store_deleted = true → (fixRow x).ds_store_found = true := by
  unfold fixRow
  by_cases h : (x.ds_store_deleted && !x.ds_store_found) = true
  · rw [if_pos h]
    intro hd
    cases hd
  · rw [if_neg h]
    intro hd
    rw [hd] at h
    simp at h
    exact h

lemma get_directory_status_incomplete (c : Cache) (row : DirectoryState) (now2 : Int)
    (hforce : c.force_refresh = false)
    (hcomp : row.search_completed = false)
    (hcontains : c.fresh_complete_dirs.contains row.path = false) :
    get_directory_status (applyCompletedState c row) now2 row.path
      = DirectoryStatus.Incomplete := by
  have hlook := applyCompletedState_lookup_self c row
  have hforce2 : (applyCompletedState c row).force_refresh = false := by
    rw [show (applyCompletedState c row).force_refresh = c.force_refresh from rfl]
    exact hforce
  have hhot : (applyCompletedState c row).fresh_complete_dirs = c.fresh_complete_dirs := by
    show (if row.search_completed then insertStr c.fresh_complete_dirs row.path
      else c.fresh_complete_dirs) = c.fresh_complete_dirs
    rw [hcomp]
    rfl
  unfold get_directory_status
  rw [if_neg (by rw [hforce2]; exact Bool.false_ne_true)]
  rw [if_neg (by rw [hhot, hcontains]; exact Bool.false_ne_true)]
  rw [hlook]
  simp [hcomp]

/-!  The claim theorems. -/

/-- Claim C9: for every pair of flags (verbose, quiet), the verbosity
built by `new_from_bools` satisfies: `is_quiet` returns true iff the
value is `Quiet`, the value is `Quiet` iff quiet is set and verbose is
not, `is_not_quiet` is the exact negation of `is_quiet` on all three
verbosity values, and the verbose+quiet conflict defaults to `Normal`. -/
theorem C9_verbosity :
    (∀ v q : Bool, (is_quiet (new_from_bools v q) = true ↔ new_from_bools v q = Verbosity.Quiet)) ∧
    (∀ v q : Bool, (new_from_bools v q = Verbosity.Quiet ↔ (q = true ∧ v = false))) ∧
    (∀ x : Verbosity, is_not_quiet x = !(is_quiet x)) ∧
    new_from_bools true true = Verbosity.Normal := by
  refine ⟨?_, ?_, ?_, rfl⟩
  · intro v q
    cases v <;> cases q <;> decide
  · intro v q
    cases v <;> cases q <;> decide
  · intro x
    cases x <;> rfl

/-- Claim C8: enqueuing the same path twice into the same session's
work queue (any priorities) leaves exactly one queue row for that
(path, session) pair — the row created by the first call, carrying its
timestamp and priority — and the second call is a no-op on the whole
database state. -/
theorem C8_enqueue_idempotent (db : Db) (now1 now2 : Int) (sid p : String)
    (prio1 prio2 : Int)
    (hpre : (db.work_queue.all (fun r => !(r.path == p && r.session_id == sid))) = true) :
    enqueue_work (enqueue_work db now1 sid p prio1) now2 sid p prio2
        = enqueue_work db now1 sid p prio1 ∧
    ((enqueue_work db now1 sid p prio1).work_queue.filter
        (fun r => r.path == p && r.session_id == sid)) =
      [{ id := db.next_queue_id, path := p, discovered_at := now1,
         priority := prio1, session_id := sid }] := by
  have hany : (db.work_queue.any (fun r => r.path == p && r.session_id == sid)) = false := by
    rw [Bool.eq_false_iff]
    intro hx
    obtain ⟨x, hxm, hxp⟩ := List.any_eq_true.mp hx
    have := List.all_eq_true.mp hpre x hxm
    rw [hxp] at this
    cases this
  have hfil : (db.work_queue.filter (fun r => r.path == p && r.session_id == sid)) = [] := by
    rw [List.filter_eq_nil_iff]
    intro x hxm hxp
    have := List.all_eq_true.mp hpre x hxm
    rw [hxp] at this
    cases this
  have h1 : enqueue_work db now1 sid p prio1 =
      { db with
        work_queue := db.work_queue ++
          [{ id := db.next_queue_id, path := p, discovered_at := now1,
             priority := prio1, session_id := sid }],
        next_queue_id := db.next_queue_id + 1 } := by
    unfold enqueue_work
    rw [if_neg (by rw [hany]; exact Bool.false_ne_true)]
  constructor
  · rw [h1]
    unfold enqueue_work
    rw [if_pos]
    rw [List.any_append]
    simp
  · rw [h1, List.filter_append, hfil]
    simp

/-- Concrete empty database witnessing claim C8. -/
def c8db : Db :=
  { directory_cache := [], work_queue := [], next_queue_id := 1,
    search_sessions := [], found_files := [] }

/-- Witness for claim C8: double enqueue of the same path into the
same session on an empty queue. -/
theorem C8_enqueue_idempotent_witness :
    ((c8db.work_queue.all (fun r => !(r.path == "/p" && r.session_id == "s1"))) = true) ∧
    (enqueue_work (enqueue_work c8db 1 "s1" "/p" 0) 2 "s1" "/p" 5 =
        enqueue_work c8db 1 "s1" "/p" 0 ∧
      ((enqueue_work c8db 1 "s1" "/p" 0).work_queue.filter
          (fun r => r.path == "/p" && r.session_id == "s1")) =
        [{ id := c8db.next_queue_id, path := "/p", discovered_at := 1,
           priority := 0, session_id := "s1" }]) :=
  ⟨by decide, C8_enqueue_idempotent c8db 1 2 "s1" "/p" 0 5 (by decide)⟩

/-- Claim C7: every `directory_cache` row surviving a successful
`validate_integrity` satisfies `ds_store_deleted ⇒ ds_store_found`:
the validation rewrites the table through the self-repair (each
violating row gets `ds_store_deleted := false`, every other row is
untouched), so no post-validation row violates the invariant. -/
theorem C7_integrity (c : Cache) (s : String) (c2 : Cache)
    (h : validate_integrity c s = Except.ok c2) :
    c2.db.directory_cache = c.db.directory_cache.map fixRow ∧
    ∀ r ∈ c2.db.directory_cache, r.ds_store_deleted = true → r.ds_store_found = true := by
  unfold validate_integrity at h
  by_cases hs : s ≠ "ok"
  · rw [if_pos hs] at h
    cases h
  · rw [if_neg hs] at h
    by_cases hbad : ((c.db.directory_cache.filter
        (fun r => r.ds_store_deleted && !r.ds_store_found)).length > 0)
    · rw [if_pos hbad] at h
      cases h
      refine ⟨rfl, ?_⟩
      intro r hr
      obtain ⟨x, _, hx⟩ := List.mem_map.mp hr
      rw [← hx]
      exact fixRow_sound x
    · rw [if_neg hbad] at h
      cases h
      have hnone : ∀ x ∈ c.db.directory_cache,
          (x.ds_store_deleted && !x.ds_store_found) = false := by
        intro x hx
        have hlen : (c.db.directory_cache.filter
            (fun r => r.ds_store_deleted && !r.ds_store_found)).length = 0 := by omega
        rw [List.length_eq_zero, List.filter_eq_nil_iff] at hlen
        exact Bool.not_eq_true _ ▸ (by simpa using hlen x hx)
      have hfix : ∀ x ∈ c.db.directory_cache, fixRow x = x := by
        intro x hx
        unfold fixRow
        rw [if_neg (by rw [hnone x hx]; exact Bool.false_ne_true)]
      refine ⟨?_, ?_⟩
      · exact ((List.map_congr_left hfix).trans (List.map_id _)).symm
      · intro r hr hd
        have hx := hnone r hr
        rw [hd] at hx
        simp at hx
        exact hx

/-- Concrete cache used to witness claim C7: one violating row and one
healthy row. -/
def c7pre : Cache :=
  { db :=
      { directory_cache :=
          [{ path := "/a", last_searched_at := 5, search_completed := true,
             ds_store_found := false, ds_store_deleted := true, error_message := none },
           { path := "/b", last_searched_at := 6, search_completed := true,
             ds_store_found := true, ds_store_deleted := true, error_message := none }],
        work_queue := [],
        next_queue_id := 1,
        search_sessions := [],
        found_files := [] },
    fresh_complete_dirs := [],
    window_hours := 168,
    force_refresh := false,
    current_session := none }

/-- The repaired cache `validate_integrity` produces from `c7pre`. -/
def c7post : Cache :=
  { c7pre with
    db := { c7pre.db with
      directory_cache := c7pre.db.directory_cache.map fixRow } }

/-- Witness for claim C7 at a concrete violating table. -/
theorem C7_integrity_witness :
    validate_integrity c7pre "ok" = Except.ok c7post ∧
    (c7post.db.directory_cache = c7pre.db.directory_cache.map fixRow ∧
      ∀ r ∈ c7post.db.directory_cache, r.ds_store_deleted = true → r.ds_store_found = true) :=
  ⟨rfl, C7_integrity c7pre "ok" c7post rfl⟩

/-- Filesystem behaviour witnessing claim C5's failure: the directory
opens, yields one `.DS_Store` entry, then the next entry read fails. -/
def c5fs : DirFs :=
  { metadata := Except.ok true,
    symlink_meta := Except.ok false,
    read_dir := Except.ok
      [EntryRes.ok
        { path := "/t/a/.DS_Store",
          file_type := some FileKind.file,
          symlink_meta_is_symlink := some false,
          file_name := some (".DS_Store") },
       EntryRes.fail ("boom")] }

/-- Claim C5 counterexample: when a directory opens and a subsequent
entry read fails, the probe does NOT buffer a completion row, does NOT
record the error string in any row, and does NOT increment the error
counter — the `?` on `next_entry()` propagates the error out of the
probe (whose `Result` the driver discards); the matches pushed before
the failure are the only trace. -/
theorem C5_counterexample :
    (process_directory 0 "/t/a" c5fs true).buffered = none ∧
    (process_directory 0 "/t/a" c5fs true).error_incr = 0 ∧
    (process_directory 0 "/t/a" c5fs true).result = Except.error ("boom") ∧
    (process_directory 0 "/t/a" c5fs true).found = ["/t/a/.DS_Store"] :=
  ⟨rfl, rfl, rfl, rfl⟩

/-- Claim C5 amended: it is the failure to OPEN the directory
(`read_dir` returning `Err`) that records the error string in the
buffered completion row, marks it `search_completed = false` and bumps
the error counter (so the directory classifies `Incomplete` and is
retried by a later session); a mid-iteration `next_entry` failure
instead propagates out of the probe with nothing buffered and no
counter bump. -/
theorem C5_amended (now : Int) (dir e : String) (sm : Except String Bool)
    (recursive : Bool)
    (hsys : is_system_path dir = false) (hsm : sm ≠ Except.ok true) :
    (process_directory now dir
        { metadata := Except.ok true, symlink_meta := sm, read_dir := Except.error e }
        recursive
      = { buffered := some
            { path := dir, last_searched_at := now, search_completed := false,
              ds_store_found := false, ds_store_deleted := false,
              error_message := some ("Failed to read directory: " ++ e) },
          posted_subdirs := [], found := [], found_incr := 0, error_incr := 1,
          result := Except.ok () }) ∧
    (∀ c : Cache, ∀ now2 : Int, c.force_refresh = false →
      c.fresh_complete_dirs.contains dir = false →
      get_directory_status
        (applyCompletedState c
          { path := dir, last_searched_at := now, search_completed := false,
            ds_store_found := false, ds_store_deleted := false,
            error_message := some ("Failed to read directory: " ++ e) })
        now2 dir = DirectoryStatus.Incomplete) ∧
    (∀ entries : List EntryRes, ∀ acc : LoopAcc, ∀ m : String,
      runEntries recursive entries
          { subdirs_to_queue := [], found := [], found_incr := 0,
            ds_store_found := false } = (acc, some m) →
      process_directory now dir
          { metadata := Except.ok true, symlink_meta := sm, read_dir := Except.ok entries }
          recursive
        = { buffered := none, posted_subdirs := [], found := acc.found,
            found_incr := acc.found_incr, error_incr := 0,
            result := Except.error m }) := by
  refine ⟨?_, ?_, ?_⟩
  · simp [process_directory, hsys, hsm]
  · intro c now2 hforce hcontains
    exact get_directory_status_incomplete c
      { path := dir, last_searched_at := now, search_completed := false,
        ds_store_found := false, ds_store_deleted := false,
        error_message := some ("Failed to read directory: " ++ e) }
      now2 hforce rfl hcontains
  · intro entries acc m hrun
    simp [process_directory, hsys, hsm, hrun]

/-- Claim C1: over one peeked batch of the scheduler's main loop, the
accepted items are exactly the non-Fresh ones in peek order, the
skipped counter delta counts the Fresh items, the resumed delta counts
the Incomplete items, the new delta counts the NotCached and Stale
items, the collected ids are the ids of ALL peeked items (accepted or
skipped), and the single `remove_work_items` call leaves exactly the
queue rows whose id was not peeked (everything else in the database
untouched). -/
theorem C1_scheduler_batch (c : Cache) (now : Int) (session_id : String) (n : Nat) :
    (scheduler_classify_and_remove c now session_id n).1.items_to_process =
      (peek_work_batch c.db session_id n).filter
        (fun it => !(decide (get_directory_status c now it.path = DirectoryStatus.Fresh))) ∧
    (scheduler_classify_and_remove c now session_id n).1.skipped_delta =
      ((peek_work_batch c.db session_id n).filter
        (fun it => decide (get_directory_status c now it.path = DirectoryStatus.Fresh))).length ∧
    (scheduler_classify_and_remove c now session_id n).1.resumed_delta =
      ((peek_work_batch c.db session_id n).filter
        (fun it => decide (get_directory_status c now it.path = DirectoryStatus.Incomplete))).length ∧
    (scheduler_classify_and_remove c now session_id n).1.new_delta =
      ((peek_work_batch c.db session_id n).filter
        (fun it => decide (get_directory_status c now it.path = DirectoryStatus.NotCached) ||
          decide (get_directory_status c now it.path = DirectoryStatus.Stale))).length ∧
    (scheduler_classify_and_remove c now session_id n).1.all_item_ids =
      (peek_work_batch c.db session_id n).filterMap (fun it => it.id) ∧
    (∀ it ∈ peek_work_batch c.db session_id n, ∃ i, it.id = some i ∧
      i ∈ (scheduler_classify_and_remove c now session_id n).1.all_item_ids) ∧
    (∀ row ∈ c.db.work_queue,
      (row ∈ (scheduler_classify_and_remove c now session_id n).2.work_queue ↔
        row.id ∉ (scheduler_classify_and_remove c now session_id n).1.all_item_ids)) ∧
    (∀ row ∈ (scheduler_classify_and_remove c now session_id n).2.work_queue,
      row ∈ c.db.work_queue) ∧
    (scheduler_classify_and_remove c now session_id n).2.directory_cache =
      c.db.directory_cache ∧
    (scheduler_classify_and_remove c now session_id n).2.search_sessions =
      c.db.search_sessions ∧
    (scheduler_classify_and_remove c now session_id n).2.found_files =
      c.db.found_files := by
  have hspec := classify_batch_spec c now (peek_work_batch c.db session_id n)
  have hres : (scheduler_classify_and_remove c now session_id n).1 =
      classify_batch c now (peek_work_batch c.db session_id n) := rfl
  have hdb : (scheduler_classify_and_remove c now session_id n).2 =
      (if (classify_batch c now (peek_work_batch c.db session_id n)).all_item_ids.isEmpty
       then c.db
       else remove_work_items c.db
         (classify_batch c now (peek_work_batch c.db session_id n)).all_item_ids) := rfl
  refine ⟨?_, ?_, ?_, ?_, ?_, ?_, ?_, ?_, ?_, ?_, ?_⟩
  · rw [hres, hspec]
  · rw [hres, hspec]
  · rw [hres, hspec]
  · rw [hres, hspec]
  · rw [hres, hspec]
  · intro it hit
    obtain ⟨r, _, hr⟩ := List.mem_map.mp hit
    refine ⟨r.id, by rw [← hr], ?_⟩
    rw [hres, hspec]
    exact List.mem_filterMap.mpr ⟨it, hit, by rw [← hr]⟩
  · intro row hrow
    rw [hres, hdb]
    by_cases hemp : (classify_batch c now (peek_work_batch c.db session_id n)).all_item_ids.isEmpty = true
    · rw [if_pos hemp]
      rw [List.isEmpty_iff] at hemp
      rw [hemp]
      simp [hrow]
    · rw [if_neg hemp]
      unfold remove_work_items
      rw [if_neg (by rw [List.isEmpty_iff] at hemp ⊢; exact hemp)]
      simp [List.mem_filter, hrow]
  · intro row hrow
    rw [hdb] at hrow
    by_cases hemp : (classify_batch c now (peek_work_batch c.db session_id n)).all_item_ids.isEmpty = true
    · rw [if_pos hemp] at hrow
      exact hrow
    · rw [if_neg hemp] at hrow
      unfold remove_work_items at hrow
      rw [if_neg (by rw [List.isEmpty_iff] at hemp ⊢; exact hemp)] at hrow
      exact (List.mem_filter.mp hrow).1
  · rw [hdb]
    by_cases hemp : (classify_batch c now (peek_work_batch c.db session_id n)).all_item_ids.isEmpty = true
    · rw [if_pos hemp]
    · rw [if_neg hemp]
      unfold remove_work_items
      rw [if_neg (by rw [List.isEmpty_iff] at hemp ⊢; exact hemp)]
  · rw [hdb]
    by_cases hemp : (classify_batch c now (peek_work_batch c.db session_id n)).all_item_ids.isEmpty = true
    · rw [if_pos hemp]
    · rw [if_neg hemp]
      unfold remove_work_items
      rw [if_neg (by rw [List.isEmpty_iff] at hemp ⊢; exact hemp)]
  · rw [hdb]
    by_cases hemp : (classify_batch c now (peek_work_batch c.db session_id n)).all_item_ids.isEmpty = true
    · rw [if_pos hemp]
    · rw [if_neg hemp]
      unfold remove_work_items
      rw [if_neg (by rw [List.isEmpty_iff] at hemp ⊢; exact hemp)]

lemma get_directory_status_of_lookup (c : Cache) (now : Int) (p : String)
    (hforce : c.force_refresh = false)
    (hmem : (c.fresh_complete_dirs.contains p) = false)
    (row : DirectoryState) (hl : dcLookup c.db.directory_cache p = some row) :
    get_directory_status c now p =
      (if (!row.search_completed) = true then DirectoryStatus.Incomplete
       else if row.last_searched_at ≤ cutoffTime now c.window_hours then DirectoryStatus.Stale
       else DirectoryStatus.Fresh) := by
  unfold get_directory_status
  rw [if_neg (by rw [hforce]; exact Bool.false_ne_true),
    if_neg (by rw [hmem]; exact Bool.false_ne_true), hl]

lemma get_directory_status_hot (c : Cache) (now : Int) (p : String)
    (hforce : c.force_refresh = false)
    (hmem : (c.fresh_complete_dirs.contains p) = true) :
    get_directory_status c now p = DirectoryStatus.Fresh := by
  unfold get_directory_status
  rw [if_neg (by rw [hforce]; exact Bool.false_ne_true), if_pos hmem]

lemma get_directory_status_of_none (c : Cache) (now : Int) (p : String)
    (hforce : c.force_refresh = false)
    (hmem : (c.fresh_complete_dirs.contains p) = false)
    (hl : dcLookup c.db.directory_cache p = none) :
    get_directory_status c now p = DirectoryStatus.NotCached := by
  unfold get_directory_status
  rw [if_neg (by rw [hforce]; exact Bool.false_ne_true),
    if_neg (by rw [hmem]; exact Bool.false_ne_true), hl]

/-- Claim C2: under the hot-set invariant the cache maintains, and
with a window small enough that the source's `i64` clamp is inactive,
`get_directory_status` returns `Fresh` iff a row exists with
`search_completed` and `last_searched_at` strictly greater than
`now − window_hours × 3600`; `Stale` iff such a row is at or below the
cutoff; `Incomplete` iff a row exists with `search_completed = false`;
`NotCached` iff no row exists; and in force-refresh mode it returns
`NotCached` for every path. -/
theorem C2_get_directory_status (c : Cache) (now : Int) (p : String)
    (hhot : hotSetInvariantB c now = true)
    (hwin : Int.ofNat c.window_hours * 3600 ≤ i64Max) :
    (c.force_refresh = true → get_directory_status c now p = DirectoryStatus.NotCached) ∧
    (c.force_refresh = false →
      ((get_directory_status c now p = DirectoryStatus.Fresh ↔
          ∃ r, dcLookup c.db.directory_cache p = some r ∧ r.search_completed = true ∧
            now - Int.ofNat c.window_hours * 3600 < r.last_searched_at) ∧
       (get_directory_status c now p = DirectoryStatus.Stale ↔
          ∃ r, dcLookup c.db.directory_cache p = some r ∧ r.search_completed = true ∧
            r.last_searched_at ≤ now - Int.ofNat c.window_hours * 3600) ∧
       (get_directory_status c now p = DirectoryStatus.Incomplete ↔
          ∃ r, dcLookup c.db.directory_cache p = some r ∧ r.search_completed = false) ∧
       (get_directory_status c now p = DirectoryStatus.NotCached ↔
          dcLookup c.db.directory_cache p = none))) := by
  have hcut : cutoffTime now c.window_hours = now - Int.ofNat c.window_hours * 3600 := by
    unfold cutoffTime
    rw [windowSeconds_eq c.window_hours hwin]
  constructor
  · intro hforce
    unfold get_directory_status
    rw [if_pos hforce]
  · intro hforce
    by_cases hmem : (c.fresh_complete_dirs.contains p) = true
    · have hst := get_directory_status_hot c now p hforce hmem
      rw [hst]
      have hp : p ∈ c.fresh_complete_dirs := by simpa using hmem
      have hinv := List.all_eq_true.mp hhot p hp
      obtain ⟨r, hr⟩ : ∃ r, dcLookup c.db.directory_cache p = some r := by
        cases hl : dcLookup c.db.directory_cache p with
        | none => rw [hl] at hinv; cases hinv
        | some r => exact ⟨r, rfl⟩
      rw [hr] at hinv
      rw [Bool.and_eq_true] at hinv
      have hcomp : r.search_completed = true := hinv.1
      have hlate : cutoffTime now c.window_hours < r.last_searched_at :=
        of_decide_eq_true hinv.2
      refine ⟨?_, ?_, ?_, ?_⟩
      · exact ⟨fun _ => ⟨r, hr, hcomp, hcut ▸ hlate⟩, fun _ => rfl⟩
      · constructor
        · intro h
          cases h
        · rintro ⟨r2, hr2, _, hle⟩
          rw [hr] at hr2
          cases hr2
          rw [hcut] at hlate
          omega
      · constructor
        · intro h
          cases h
        · rintro ⟨r2, hr2, hc2⟩
          rw [hr] at hr2
          cases hr2
          rw [hcomp] at hc2
          cases hc2
      · constructor
        · intro h
          cases h
        · intro h
          rw [hr] at h
          cases h
    · have hmem2 : (c.fresh_complete_dirs.contains p) = false := by simpa using hmem
      cases hl : dcLookup c.db.directory_cache p with
      | none =>
        have hst := get_directory_status_of_none c now p hforce hmem2 hl
        rw [hst]
        refine ⟨?_, ?_, ?_, ?_⟩
        · constructor
          · intro h
            cases h
          · rintro ⟨r, hr, _⟩
            cases hr
        · constructor
          · intro h
            cases h
          · rintro ⟨r, hr, _⟩
            cases hr
        · constructor
          · intro h
            cases h
          · rintro ⟨r, hr, _⟩
            cases hr
        · exact ⟨fun _ => rfl, fun _ => rfl⟩
      | some row =>
        have hst := get_directory_status_of_lookup c now p hforce hmem2 row hl
        by_cases hcomp : row.search_completed = true
        · rw [hst, if_neg (by rw [hcomp]; simp)]
          by_cases hstale : row.last_searched_at ≤ cutoffTime now c.window_hours
          · rw [if_pos hstale]
            refine ⟨?_, ?_, ?_, ?_⟩
            · constructor
              · intro h
                cases h
              · rintro ⟨r2, hr2, _, hlt⟩
                cases hr2
                rw [hcut] at hstale
                omega
            · exact ⟨fun _ => ⟨row, rfl, hcomp, hcut ▸ hstale⟩, fun _ => rfl⟩
            · constructor
              · intro h
                cases h
              · rintro ⟨r2, hr2, hc2⟩
                cases hr2
                rw [hcomp] at hc2
                cases hc2
            · constructor
              · intro h
                cases h
              · intro h
                cases h
          · rw [if_neg hstale]
            refine ⟨?_, ?_, ?_, ?_⟩
            · exact ⟨fun _ => ⟨row, rfl, hcomp, by rw [← hcut]; omega⟩, fun _ => rfl⟩
            · constructor
              · intro h
                cases h
              · rintro ⟨r2, hr2, _, hle⟩
                cases hr2
                rw [hcut] at hstale
                omega
            · constructor
              · intro h
                cases h
              · rintro ⟨r2, hr2, hc2⟩
                cases hr2
                rw [hcomp] at hc2
                cases hc2
            · constructor
              · intro h
                cases h
              · intro h
                cases h
        · have hcf : row.search_completed = false := by
            cases hb : row.search_completed
            · rfl
            · exact absurd hb hcomp
          rw [hst, if_pos (by rw [hcf]; rfl)]
          refine ⟨?_, ?_, ?_, ?_⟩
          · constructor
            · intro h
              cases h
            · rintro ⟨r2, hr2, hc2, _⟩
              cases hr2
              rw [hcf] at hc2
              cases hc2
          · constructor
            · intro h
              cases h
            · rintro ⟨r2, hr2, hc2, _⟩
              cases hr2
              rw [hcf] at hc2
              cases hc2
          · exact ⟨fun _ => ⟨row, rfl, hcf⟩, fun _ => rfl⟩
          · constructor
            · intro h
              cases h
            · intro h
              cases h

/-- Concrete cache used to witness claim C2: one fresh row in the hot
set, one stale row, one incomplete row, and one absent path. -/
def c2cache : Cache :=
  { db :=
      { directory_cache :=
          [{ path := "/hot", last_searched_at := 90, search_completed := true,
             ds_store_found := false, ds_store_deleted := false, error_message := none },
           { path := "/old", last_searched_at := -4000, search_completed := true,
             ds_store_found := false, ds_store_deleted := false, error_message := none },
           { path := "/part", last_searched_at := 50, search_completed := false,
             ds_store_found := false, ds_store_deleted := false, error_message := none }],
        work_queue := [],
        next_queue_id := 1,
        search_sessions := [],
        found_files := [] },
    fresh_complete_dirs := ["/hot"],
    window_hours := 1,
    force_refresh := false,
    current_session := none }

/-- Witness for claim C2 on `c2cache` at `now = 100` and the stale
path. -/
theorem C2_get_directory_status_witness :
    hotSetInvariantB c2cache 100 = true ∧
    Int.ofNat c2cache.window_hours * 3600 ≤ i64Max ∧
    (c2cache.force_refresh = false →
      (get_directory_status c2cache 100 "/old" = DirectoryStatus.Stale ↔
        ∃ r, dcLookup c2cache.db.directory_cache "/old" = some r ∧
          r.search_completed = true ∧
          r.last_searched_at ≤ 100 - Int.ofNat c2cache.window_hours * 3600)) :=
  ⟨by decide, by decide,
    fun hf => ((C2_get_directory_status c2cache 100 "/old" (by decide) (by decide)).2 hf).2.1⟩

lemma mark_completed_lookup (c : Cache) (now : Int) (p : String) (f d : Bool) :
    dcLookup (mark_completed c now p f d).db.directory_cache p =
      some { path := p, last_searched_at := now, search_completed := true,
             ds_store_found := f, ds_store_deleted := d, error_message := none } := by
  have h := dcLookup_upsert_self c.db.directory_cache p
    { path := p, last_searched_at := now, search_completed := true,
      ds_store_found := f, ds_store_deleted := d, error_message := none }
    (fun r => { r with
      last_searched_at := now,
      search_completed := true,
      ds_store_found := f,
      ds_store_deleted := d,
      error_message := none }) rfl (fun x => rfl)
  cases hl : dcLookup c.db.directory_cache p with
  | none =>
    rw [hl] at h
    exact h
  | some r =>
    rw [hl] at h
    have hp : r.path = p := dcLookup_path hl
    have h2 : dcLookup (mark_completed c now p f d).db.directory_cache p =
        some { r with
          last_searched_at := now,
          search_completed := true,
          ds_store_found := f,
          ds_store_deleted := d,
          error_message := none } := h
    rw [show ({ r with
      last_searched_at := now,
      search_completed := true,
      ds_store_found := f,
      ds_store_deleted := d,
      error_message := none } : DirectoryState) =
        { path := p, last_searched_at := now, search_completed := true,
          ds_store_found := f, ds_store_deleted := d, error_message := none } by
      cases r
      simp_all] at h2
    exact h2

/-- Claim C10: after `mark_completed(path, found, deleted)` the row for
the path holds `search_completed = true`, the two flags, and
`error_message = NULL` — in particular an error string previously
recorded by `mark_error` for that path is cleared — and the path is
inserted into the in-memory hot set; `mark_completed_batch` instead
writes each state's own `error_message` field (the looked-up row is
the state itself, error field included), not forcing it to NULL. -/
theorem C10_mark_completed :
    (∀ c : Cache, ∀ now : Int, ∀ p : String, ∀ f d : Bool,
      dcLookup (mark_completed c now p f d).db.directory_cache p =
        some { path := p, last_searched_at := now, search_completed := true,
               ds_store_found := f, ds_store_deleted := d, error_message := none } ∧
      p ∈ (mark_completed c now p f d).fresh_complete_dirs) ∧
    (∀ c : Cache, ∀ now0 now : Int, ∀ p e : String, ∀ f d : Bool,
      dcLookup (mark_completed (mark_error c now0 p e) now p f d).db.directory_cache p =
        some { path := p, last_searched_at := now, search_completed := true,
               ds_store_found := f, ds_store_deleted := d, error_message := none }) ∧
    (∀ c : Cache, ∀ states : List DirectoryState,
      (states.map (fun s => s.path)).Nodup →
      ∀ st ∈ states,
        dcLookup (mark_completed_batch c states).db.directory_cache st.path = some st) := by
  refine ⟨?_, ?_, ?_⟩
  · intro c now p f d
    exact ⟨mark_completed_lookup c now p f d, insertStr_mem c.fresh_complete_dirs p⟩
  · intro c now0 now p e f d
    exact mark_completed_lookup (mark_error c now0 p e) now p f d
  · intro c states hnd
    exact mark_completed_batch_lookup_mem c states hnd

/-- Concrete empty cache used to witness claim C10. -/
def c10pre : Cache :=
  { db :=
      { directory_cache := [],
        work_queue := [],
        next_queue_id := 1,
        search_sessions := [],
        found_files := [] },
    fresh_complete_dirs := [],
    window_hours := 168,
    force_refresh := false,
    current_session := none }

/-- Concrete completed state (with its own error string) used to
witness the batch half of claim C10. -/
def c10state : DirectoryState :=
  { path := "/w", last_searched_at := 9, search_completed := true,
    ds_store_found := false, ds_store_deleted := false,
    error_message := some ("kept") }

/-- Witness for claim C10: a `mark_error` then `mark_completed` pair
ends with a NULL error, and a singleton batch keeps its own error. -/
theorem C10_mark_completed_witness :
    (dcLookup (mark_completed c10pre 7 "/w" true false).db.directory_cache "/w" =
        some { path := "/w", last_searched_at := 7, search_completed := true,
               ds_store_found := true, ds_store_deleted := false, error_message := none } ∧
      "/w" ∈ (mark_completed c10pre 7 "/w" true false).fresh_complete_dirs) ∧
    (dcLookup (mark_completed (mark_error c10pre 3 "/w" ("denied")) 7 "/w" true
        false).db.directory_cache "/w" =
      some { path := "/w", last_searched_at := 7, search_completed := true,
             ds_store_found := true, ds_store_deleted := false, error_message := none }) ∧
    (([c10state].map (fun s => s.path)).Nodup ∧
      dcLookup (mark_completed_batch c10pre [c10state]).db.directory_cache
        c10state.path = some c10state) :=
  ⟨C10_mark_completed.1 c10pre 7 "/w" true false,
   C10_mark_completed.2.1 c10pre 3 7 "/w" "denied" true false,
   by decide,
   C10_mark_completed.2.2 c10pre [c10state] (by decide) c10state (by decide)⟩

/-- The pairwise form of "at most one interrupted session row per
`(root, recursive, dry-run)` triple": no two rows of the interrupted
filter share a triple. -/
def atMostOneInterruptedPerTriple (l : List SessionRow) : Prop :=
  (l.filter (fun r => decide (r.status = SessionStatus.Interrupted))).Pairwise
    (fun a b => ¬ (a.root_path = b.root_path ∧ a.is_recursive = b.is_recursive ∧
      a.is_dry_run = b.is_dry_run))

lemma interrupted_filter_activation_sublist (t : List SessionRow) (sid : String) :
    List.Sublist
      ((t.map (fun r => if r.session_id == sid then
          { r with status := SessionStatus.Active } else r)).filter
        (fun r => decide (r.status = SessionStatus.Interrupted)))
      (t.filter (fun r => decide (r.status = SessionStatus.Interrupted))) := by
  apply filter_map_upd_sublist
  intro r hp
  by_cases hid : (r.session_id == sid) = true
  · rw [if_pos hid] at hp
    simp at hp
  · rw [if_neg hid]

/-- Claim C6: `resume_session` preserves the invariant that at most one
session row per `(root, recursive, dry-run)` triple is interrupted —
it only ever flips the selected interrupted row to active or deletes
it, so the post-state interrupted rows are a sublist of the pre-state
ones. -/
theorem C6_interrupted_unique (c : Cache) (root : String) (rec dry : Bool)
    (hpre : atMostOneInterruptedPerTriple c.db.search_sessions) :
    atMostOneInterruptedPerTriple
      ((resume_session c root rec dry).1.db.search_sessions) := by
  unfold resume_session
  split
  · exact hpre
  · dsimp only
    split
    · unfold atMostOneInterruptedPerTriple at hpre ⊢
      exact List.Pairwise.sublist (interrupted_filter_activation_sublist _ _) hpre
    · unfold atMostOneInterruptedPerTriple at hpre ⊢
      exact List.Pairwise.sublist (List.Sublist.filter _ (List.filter_sublist _)) hpre

/-- Concrete cache used to witness claim C6: one interrupted session
with pending work. -/
def c6cache : Cache :=
  { db :=
      { directory_cache := [],
        work_queue :=
          [{ id := 1, path := "/r", discovered_at := 2, priority := 0,
             session_id := "s1" }],
        next_queue_id := 2,
        search_sessions :=
          [{ session_id := "s1", root_path := "/r", started_at := 10,
             completed_at := none, is_recursive := true, is_dry_run := false,
             status := SessionStatus.Interrupted }],
        found_files := [] },
    fresh_complete_dirs := [],
    window_hours := 168,
    force_refresh := false,
    current_session := none }

/-- Witness for claim C6 on `c6cache`. -/
theorem C6_interrupted_unique_witness :
    atMostOneInterruptedPerTriple c6cache.db.search_sessions ∧
    atMostOneInterruptedPerTriple
      ((resume_session c6cache "/r" true false).1.db.search_sessions) :=
  ⟨by unfold atMostOneInterruptedPerTriple; decide,
   C6_interrupted_unique c6cache "/r" true false
     (by unfold atMostOneInterruptedPerTriple; decide)⟩

lemma cancel_flush_frame (c : Cache) (dry : Bool) (buf : List DirectoryState) :
    (cancel_flush c dry buf).db.work_queue = c.db.work_queue ∧
    (cancel_flush c dry buf).db.search_sessions = c.db.search_sessions ∧
    (cancel_flush c dry buf).db.found_files = c.db.found_files ∧
    (cancel_flush c dry buf).current_session = c.current_session := by
  unfold cancel_flush
  split
  · exact ⟨rfl, rfl, rfl, rfl⟩
  · have h := mark_completed_batch_frame c
      (if dry then buf.map (fun s => { s with ds_store_deleted := false }) else buf)
    exact ⟨h.1, h.2.1, h.2.2.1, h.2.2.2.2.1⟩

lemma cancel_flush_lookup (c : Cache) (dry : Bool) (buf : List DirectoryState)
    (hnd : (buf.map (fun s => s.path)).Nodup) :
    ∀ st ∈ buf,
      dcLookup (cancel_flush c dry buf).db.directory_cache st.path =
        some (if dry then { st with ds_store_deleted := false } else st) := by
  intro st hst
  have hne : buf.isEmpty = false := by
    cases buf with
    | nil => cases hst
    | cons a tl => rfl
  unfold cancel_flush
  rw [if_neg (by rw [hne]; exact Bool.false_ne_true)]
  cases hdry : dry with
  | true =>
    rw [if_pos rfl]
    have hnd2 : ((buf.map (fun s => { s with ds_store_deleted := false })).map
        (fun s => s.path)).Nodup := by
      rw [List.map_map]
      exact hnd
    have hmem : ({ st with ds_store_deleted := false } : DirectoryState) ∈
        buf.map (fun s => { s with ds_store_deleted := false }) :=
      List.mem_map_of_mem _ hst
    exact mark_completed_batch_lookup_mem c _ hnd2 _ hmem
  | false =>
    rw [if_neg Bool.false_ne_true]
    exact mark_completed_batch_lookup_mem c buf hnd st hst

lemma cancel_save_frame (c : Cache) (now : Int) (sid : String) (files : List String) :
    (cancel_save c now sid files).db.directory_cache = c.db.directory_cache ∧
    (cancel_save c now sid files).db.work_queue = c.db.work_queue ∧
    (cancel_save c now sid files).db.search_sessions = c.db.search_sessions ∧
    (cancel_save c now sid files).current_session = c.current_session := by
  unfold cancel_save
  split
  · exact ⟨rfl, rfl, rfl, rfl⟩
  · have h := save_found_files_frame c.db now sid files
    exact ⟨h.1, h.2.1, h.2.2.1, rfl⟩

lemma cancel_save_found (c : Cache) (now : Int) (sid : String) (files : List String) :
    ∀ f ∈ files, ∃ r ∈ (cancel_save c now sid files).db.found_files,
      r.session_id = sid ∧ r.file_path = f := by
  intro f hf
  have hne : files.isEmpty = false := by
    cases files with
    | nil => cases hf
    | cons a tl => rfl
  unfold cancel_save
  rw [if_neg (by rw [hne]; exact Bool.false_ne_true)]
  exact save_found_files_has c.db now sid files f hf

lemma complete_session_of_some (c : Cache) (now : Int) (s : SessionRow)
    (h : c.current_session = some s) :
    complete_session c now =
      { c with
        db := { c.db with
          search_sessions := c.db.search_sessions.map (fun r =>
            if r.session_id == s.session_id then
              { r with completed_at := some now, status := SessionStatus.Completed }
            else r),
          work_queue := c.db.work_queue.filter
            (fun r => !(r.session_id == s.session_id)) },
        current_session := none } := by
  unfold complete_session
  rw [h]

lemma interrupt_session_of_some (c : Cache) (s : SessionRow)
    (h : c.current_session = some s) :
    interrupt_session c =
      { c with
        db := { c.db with
          search_sessions := c.db.search_sessions.map (fun r =>
            if r.session_id == s.session_id then
              { r with status := SessionStatus.Interrupted }
            else r) } } := by
  unfold interrupt_session
  rw [h]

lemma sLookup_map_upd (t : List SessionRow) (k : String) (f : SessionRow → SessionRow)
    (hf : ∀ x, (f x).session_id = x.session_id) :
    sLookup (t.map (fun r => if r.session_id == k then f r else r)) k =
      (sLookup t k).map f := by
  unfold sLookup
  exact find?_map_upd (fun r => r.session_id) k f hf t

/-- Claim C4: `resume_session` selects the interrupted session row of
the exact `(root, recursive, dry-run)` triple with the greatest
`started_at`; with at least one pending work-queue row or logged
found-file row it flips the row back to active and returns its id
(touching nothing else); otherwise it deletes the session's queue
rows, found-file rows and session row and returns none; and with no
matching interrupted row it returns none and changes nothing. -/
theorem C4_resume_session (c : Cache) (root : String) (rec dry : Bool)
    (hnd : (c.db.search_sessions.map (fun r => r.session_id)).Nodup) :
    (selectMostRecent (c.db.search_sessions.filter
        (fun r => matchesTriple r root rec dry)) = none →
      resume_session c root rec dry = (c, none)) ∧
    (∀ row, selectMostRecent (c.db.search_sessions.filter
        (fun r => matchesTriple r root rec dry)) = some row →
      row ∈ c.db.search_sessions ∧ matchesTriple row root rec dry = true ∧
      (∀ r ∈ c.db.search_sessions, matchesTriple r root rec dry = true →
        r.started_at ≤ row.started_at) ∧
      ((get_work_count c.db row.session_id > 0 ∨
          (c.db.found_files.filter
            (fun r => r.session_id == row.session_id)).length > 0) →
        ((resume_session c root rec dry).2 = some row.session_id ∧
         sLookup (resume_session c root rec dry).1.db.search_sessions row.session_id =
           some { row with status := SessionStatus.Active } ∧
         (resume_session c root rec dry).1.db.work_queue = c.db.work_queue ∧
         (resume_session c root rec dry).1.db.found_files = c.db.found_files ∧
         (resume_session c root rec dry).1.db.directory_cache = c.db.directory_cache)) ∧
      ((get_work_count c.db row.session_id = 0 ∧
          (c.db.found_files.filter
            (fun r => r.session_id == row.session_id)).length = 0) →
        ((resume_session c root rec dry).2 = none ∧
         sLookup (resume_session c root rec dry).1.db.search_sessions
           row.session_id = none ∧
         (resume_session c root rec dry).1.db.work_queue =
           c.db.work_queue.filter (fun r => !(r.session_id == row.session_id)) ∧
         (resume_session c root rec dry).1.db.found_files =
           c.db.found_files.filter (fun r => !(r.session_id == row.session_id)) ∧
         (∀ r ∈ c.db.search_sessions, r.session_id ≠ row.session_id →
           r ∈ (resume_session c root rec dry).1.db.search_sessions)))) := by
  constructor
  · intro hsel
    unfold resume_session
    rw [hsel]
  · intro row hsel
    have hmemf := selectMostRecent_mem _ row hsel
    have hmem := (List.mem_filter.mp hmemf).1
    have hmatch : matchesTriple row root rec dry = true := (List.mem_filter.mp hmemf).2
    refine ⟨hmem, hmatch, ?_, ?_, ?_⟩
    · intro r hr hm
      exact selectMostRecent_max _ row hsel r (List.mem_filter.mpr ⟨hr, hm⟩)
    · intro hcond
      have hb : (decide (get_work_count c.db row.session_id > 0) ||
          decide ((c.db.found_files.filter
            (fun r => r.session_id == row.session_id)).length > 0)) = true := by
        rcases hcond with h | h
        · rw [Bool.or_eq_true]
          exact Or.inl (decide_eq_true h)
        · rw [Bool.or_eq_true]
          exact Or.inr (decide_eq_true h)
      have hrs : resume_session c root rec dry =
          ({ c with
             db := { c.db with
               search_sessions := c.db.search_sessions.map (fun r =>
                 if r.session_id == row.session_id then
                   { r with status := SessionStatus.Active }
                 else r) },
             current_session := some
               { session_id := row.session_id, root_path := root,
                 started_at := row.started_at, completed_at := none,
                 is_recursive := rec, is_dry_run := dry,
                 status := SessionStatus.Active } },
           some row.session_id) := by
        unfold resume_session
        rw [hsel]
        dsimp only
        rw [if_pos hb]
      rw [hrs]
      refine ⟨rfl, ?_, rfl, rfl, rfl⟩
      have hfind : sLookup c.db.search_sessions row.session_id = some row := by
        unfold sLookup
        exact find?_key_of_mem_nodup (fun r => r.session_id) c.db.search_sessions
          hnd row hmem
      rw [show ({ c with
             db := { c.db with
               search_sessions := c.db.search_sessions.map (fun r =>
                 if r.session_id == row.session_id then
                   { r with status := SessionStatus.Active }
                 else r) },
             current_session := some
               { session_id := row.session_id, root_path := root,
                 started_at := row.started_at, completed_at := none,
                 is_recursive := rec, is_dry_run := dry,
                 status := SessionStatus.Active } } : Cache).db.search_sessions =
          c.db.search_sessions.map (fun r =>
            if r.session_id == row.session_id then
              { r with status := SessionStatus.Active }
            else r) from rfl]
      rw [sLookup_map_upd c.db.search_sessions row.session_id
        (fun r => { r with status := SessionStatus.Active }) (fun x => rfl), hfind]
      rfl
    · rintro ⟨hw0, hf0⟩
      have hb : (decide (get_work_count c.db row.session_id > 0) ||
          decide ((c.db.found_files.filter
            (fun r => r.session_id == row.session_id)).length > 0)) = false := by
        rw [Bool.or_eq_false_iff]
        constructor
        · rw [decide_eq_false_iff_not]
          omega
        · rw [decide_eq_false_iff_not]
          omega
      have hrs : resume_session c root rec dry =
          (cleanup_session c row.session_id, none) := by
        unfold resume_session
        rw [hsel]
        dsimp only
        rw [if_neg (by rw [hb]; exact Bool.false_ne_true)]
      rw [hrs]
      refine ⟨rfl, ?_, rfl, rfl, ?_⟩
      · unfold cleanup_session sLookup
        rw [List.find?_eq_none]
        intro x hx
        have hxf := List.mem_filter.mp hx
        intro hxe
        rw [hxe] at hxf
        simp at hxf
      · intro r hr hne
        unfold cleanup_session
        refine List.mem_filter.mpr ⟨hr, ?_⟩
        simp [hne]

/-- Concrete cache used to witness claim C4: two interrupted sessions
for the same triple with different start times, the newer one holding
pending work. -/
def c4cache : Cache :=
  { db :=
      { directory_cache := [],
        work_queue :=
          [{ id := 1, path := "/r/x", discovered_at := 2, priority := 0,
             session_id := "s2" }],
        next_queue_id := 2,
        search_sessions :=
          [{ session_id := "s1", root_path := "/r", started_at := 10,
             completed_at := none, is_recursive := true, is_dry_run := false,
             status := SessionStatus.Interrupted },
           { session_id := "s2", root_path := "/r", started_at := 20,
             completed_at := none, is_recursive := true, is_dry_run := false,
             status := SessionStatus.Interrupted }],
        found_files := [] },
    fresh_complete_dirs := [],
    window_hours := 168,
    force_refresh := false,
    current_session := none }

/-- Witness for claim C4 on `c4cache`: the most recent interrupted row
is selected and, having pending work, is flipped back to active. -/
theorem C4_resume_session_witness :
    (c4cache.db.search_sessions.map (fun r => r.session_id)).Nodup ∧
    ∀ row, selectMostRecent (c4cache.db.search_sessions.filter
        (fun r => matchesTriple r "/r" true false)) = some row →
      row ∈ c4cache.db.search_sessions ∧ matchesTriple row "/r" true false = true ∧
      (∀ r ∈ c4cache.db.search_sessions, matchesTriple r "/r" true false = true →
        r.started_at ≤ row.started_at) ∧
      ((get_work_count c4cache.db row.session_id > 0 ∨
          (c4cache.db.found_files.filter
            (fun r => r.session_id == row.session_id)).length > 0) →
        ((resume_session c4cache "/r" true false).2 = some row.session_id ∧
         sLookup (resume_session c4cache "/r" true false).1.db.search_sessions
             row.session_id =
           some { row with status := SessionStatus.Active } ∧
         (resume_session c4cache "/r" true false).1.db.work_queue =
           c4cache.db.work_queue ∧
         (resume_session c4cache "/r" true false).1.db.found_files =
           c4cache.db.found_files ∧
         (resume_session c4cache "/r" true false).1.db.directory_cache =
           c4cache.db.directory_cache)) ∧
      ((get_work_count c4cache.db row.session_id = 0 ∧
          (c4cache.db.found_files.filter
            (fun r => r.session_id == row.session_id)).length = 0) →
        ((resume_session c4cache "/r" true false).2 = none ∧
         sLookup (resume_session c4cache "/r" true false).1.db.search_sessions
           row.session_id = none ∧
         (resume_session c4cache "/r" true false).1.db.work_queue =
           c4cache.db.work_queue.filter
             (fun r => !(r.session_id == row.session_id)) ∧
         (resume_session c4cache "/r" true false).1.db.found_files =
           c4cache.db.found_files.filter
             (fun r => !(r.session_id == row.session_id)) ∧
         (∀ r ∈ c4cache.db.search_sessions, r.session_id ≠ row.session_id →
           r ∈ (resume_session c4cache "/r" true false).1.db.search_sessions))) :=
  ⟨by decide, (C4_resume_session c4cache "/r" true false (by decide)).2⟩

/-- Claim C3: on cancellation (task aborts having no modelled effect),
the scheduler flushes the buffered completed-directory states to the
cache, saves the accumulated matches to the session's found-file log,
then reads the session's remaining work-queue count and completes the
session when it is zero (stamping the row and clearing its queue) and
interrupts it otherwise (leaving the queue untouched), finally
returning the matches and stats collected so far. -/
theorem C3_cancellation (c : Cache) (now : Int) (sid : String) (dry_run : Bool)
    (completed_buf : List DirectoryState) (found_buf : List String)
    (stats : SearchStats) (s : SessionRow)
    (hcur : c.current_session = some s) (hsid : s.session_id = sid)
    (srow : SessionRow) (hrow : sLookup c.db.search_sessions sid = some srow)
    (hnd : (completed_buf.map (fun st => st.path)).Nodup) :
    (cancellation_path c now sid dry_run completed_buf found_buf stats).2.1 =
      found_buf ∧
    (cancellation_path c now sid dry_run completed_buf found_buf stats).2.2 = stats ∧
    (∀ st ∈ completed_buf,
      dcLookup (cancellation_path c now sid dry_run completed_buf found_buf
          stats).1.db.directory_cache st.path =
        some (if dry_run then { st with ds_store_deleted := false } else st)) ∧
    (∀ f ∈ found_buf,
      ∃ r ∈ (cancellation_path c now sid dry_run completed_buf found_buf
          stats).1.db.found_files,
        r.session_id = sid ∧ r.file_path = f) ∧
    (get_work_count c.db sid = 0 →
      sLookup (cancellation_path c now sid dry_run completed_buf found_buf
          stats).1.db.search_sessions sid =
        some { srow with
               completed_at := some now,
               status := SessionStatus.Completed } ∧
      get_work_count (cancellation_path c now sid dry_run completed_buf found_buf
          stats).1.db sid = 0 ∧
      (cancellation_path c now sid dry_run completed_buf found_buf
          stats).1.current_session = none) ∧
    (get_work_count c.db sid ≠ 0 →
      sLookup (cancellation_path c now sid dry_run completed_buf found_buf
          stats).1.db.search_sessions sid =
        some { srow with status := SessionStatus.Interrupted } ∧
      (cancellation_path c now sid dry_run completed_buf found_buf
          stats).1.db.work_queue = c.db.work_queue) := by
  have hflush := cancel_flush_frame c dry_run completed_buf
  have hsave := cancel_save_frame (cancel_flush c dry_run completed_buf) now sid found_buf
  have hqueue2 : (cancel_save (cancel_flush c dry_run completed_buf) now sid
      found_buf).db.work_queue = c.db.work_queue := hsave.2.1.trans hflush.1
  have hsess2 : (cancel_save (cancel_flush c dry_run completed_buf) now sid
      found_buf).db.search_sessions = c.db.search_sessions := hsave.2.2.1.trans hflush.2.1
  have hcur2 : (cancel_save (cancel_flush c dry_run completed_buf) now sid
      found_buf).current_session = some s := hsave.2.2.2.trans (hflush.2.2.2.trans hcur)
  have hrem : get_work_count (cancel_save (cancel_flush c dry_run completed_buf) now sid
      found_buf).db sid = get_work_count c.db sid := by
    unfold get_work_count
    rw [hqueue2]
  have hpath : cancellation_path c now sid dry_run completed_buf found_buf stats =
      (if get_work_count (cancel_save (cancel_flush c dry_run completed_buf) now sid
          found_buf).db sid = 0
       then complete_session (cancel_save (cancel_flush c dry_run completed_buf) now sid
          found_buf) now
       else interrupt_session (cancel_save (cancel_flush c dry_run completed_buf) now sid
          found_buf),
       found_buf, stats) := rfl
  rw [hpath]
  by_cases h0 : get_work_count c.db sid = 0
  · rw [if_pos (by rw [hrem]; exact h0)]
    have hcomp := complete_session_of_some
      (cancel_save (cancel_flush c dry_run completed_buf) now sid found_buf) now s hcur2
    rw [hcomp]
    refine ⟨rfl, rfl, ?_, ?_, ?_, ?_⟩
    · intro st hst
      have h1 := cancel_flush_lookup c dry_run completed_buf hnd st hst
      show dcLookup (cancel_save (cancel_flush c dry_run completed_buf) now sid
          found_buf).db.directory_cache st.path = _
      rw [hsave.1]
      exact h1
    · intro f hf
      obtain ⟨r, hr, h1, h2⟩ :=
        cancel_save_found (cancel_flush c dry_run completed_buf) now sid found_buf f hf
      exact ⟨r, hr, h1, h2⟩
    · intro _
      refine ⟨?_, ?_, rfl⟩
      · show sLookup ((cancel_save (cancel_flush c dry_run completed_buf) now sid
            found_buf).db.search_sessions.map (fun r =>
              if r.session_id == s.session_id then
                { r with completed_at := some now, status := SessionStatus.Completed }
              else r)) sid = _
        rw [hsess2, hsid]
        rw [sLookup_map_upd c.db.search_sessions sid
          (fun r => { r with
            completed_at := some now,
            status := SessionStatus.Completed }) (fun x => rfl), hrow]
        rfl
      · show ((( cancel_save (cancel_flush c dry_run completed_buf) now sid
            found_buf).db.work_queue.filter
              (fun r => !(r.session_id == s.session_id))).filter
                (fun r => r.session_id == sid)).length = 0
        rw [hqueue2, hsid, List.filter_filter]
        rw [List.filter_eq_nil_iff.mpr (fun a _ => by simp)]
        rfl
    · intro hne
      exact absurd h0 hne
  · rw [if_neg (by rw [hrem]; exact h0)]
    have hint := interrupt_session_of_some
      (cancel_save (cancel_flush c dry_run completed_buf) now sid found_buf) s hcur2
    rw [hint]
    refine ⟨rfl, rfl, ?_, ?_, ?_, ?_⟩
    · intro st hst
      have h1 := cancel_flush_lookup c dry_run completed_buf hnd st hst
      show dcLookup (cancel_save (cancel_flush c dry_run completed_buf) now sid
          found_buf).db.directory_cache st.path = _
      rw [hsave.1]
      exact h1
    · intro f hf
      obtain ⟨r, hr, h1, h2⟩ :=
        cancel_save_found (cancel_flush c dry_run completed_buf) now sid found_buf f hf
      exact ⟨r, hr, h1, h2⟩
    · intro hz
      exact absurd hz h0
    · intro _
      refine ⟨?_, ?_⟩
      · show sLookup ((cancel_save (cancel_flush c dry_run completed_buf) now sid
            found_buf).db.search_sessions.map (fun r =>
              if r.session_id == s.session_id then
                { r with status := SessionStatus.Interrupted }
              else r)) sid = _
        rw [hsess2, hsid]
        rw [sLookup_map_upd c.db.search_sessions sid
          (fun r => { r with status := SessionStatus.Interrupted })
          (fun x => rfl), hrow]
        rfl
      · exact hqueue2

/-- Concrete inputs witnessing claim C3: an active session with one
queued row, one buffered completed state, one buffered match. -/
def c3session : SessionRow :=
  { session_id := "s1", root_path := "/r", started_at := 10,
    completed_at := none, is_recursive := true, is_dry_run := false,
    status := SessionStatus.Active }

/-- Concrete cache for the claim C3 witness. -/
def c3cache : Cache :=
  { db :=
      { directory_cache := [],
        work_queue :=
          [{ id := 1, path := "/r/x", discovered_at := 2, priority := 0,
             session_id := "s1" }],
        next_queue_id := 2,
        search_sessions := [c3session],
        found_files := [] },
    fresh_complete_dirs := [],
    window_hours := 168,
    force_refresh := false,
    current_session := some c3session }

/-- Concrete buffered completed state for the claim C3 witness. -/
def c3state : DirectoryState :=
  { path := "/r", last_searched_at := 11, search_completed := true,
    ds_store_found := true, ds_store_deleted := false, error_message := none }

/-- Witness for claim C3 on `c3cache` (non-empty queue, so the session
is interrupted). -/
theorem C3_cancellation_witness :
    c3cache.current_session = some c3session ∧
    c3session.session_id = "s1" ∧
    sLookup c3cache.db.search_sessions "s1" = some c3session ∧
    ([c3state].map (fun st => st.path)).Nodup ∧
    ((cancellation_path c3cache 12 "s1" false [c3state] ["/r/.DS_Store"]
        { new_searches := 1, resumed_searches := 0, skipped_cached := 0,
          found := 1, errors := 0 }).2.1 = ["/r/.DS_Store"] ∧
     (cancellation_path c3cache 12 "s1" false [c3state] ["/r/.DS_Store"]
        { new_searches := 1, resumed_searches := 0, skipped_cached := 0,
          found := 1, errors := 0 }).2.2 =
       { new_searches := 1, resumed_searches := 0, skipped_cached := 0,
         found := 1, errors := 0 } ∧
     (∀ st ∈ [c3state],
       dcLookup (cancellation_path c3cache 12 "s1" false [c3state] ["/r/.DS_Store"]
          { new_searches := 1, resumed_searches := 0, skipped_cached := 0,
            found := 1, errors := 0 }).1.db.directory_cache st.path =
         some (if false then { st with ds_store_deleted := false } else st)) ∧
     (∀ f ∈ ["/r/.DS_Store"],
       ∃ r ∈ (cancellation_path c3cache 12 "s1" false [c3state] ["/r/.DS_Store"]
          { new_searches := 1, resumed_searches := 0, skipped_cached := 0,
            found := 1, errors := 0 }).1.db.found_files,
         r.session_id = "s1" ∧ r.file_path = f) ∧
     (get_work_count c3cache.db "s1" = 0 →
       sLookup (cancellation_path c3cache 12 "s1" false [c3state] ["/r/.DS_Store"]
          { new_searches := 1, resumed_searches := 0, skipped_cached := 0,
            found := 1, errors := 0 }).1.db.search_sessions "s1" =
         some { c3session with
                completed_at := some 12,
                status := SessionStatus.Completed } ∧
       get_work_count (cancellation_path c3cache 12 "s1" false [c3state]
          ["/r/.DS_Store"]
          { new_searches := 1, resumed_searches := 0, skipped_cached := 0,
            found := 1, errors := 0 }).1.db "s1" = 0 ∧
       (cancellation_path c3cache 12 "s1" false [c3state] ["/r/.DS_Store"]
          { new_searches := 1, resumed_searches := 0, skipped_cached := 0,
            found := 1, errors := 0 }).1.current_session = none) ∧
     (get_work_count c3cache.db "s1" ≠ 0 →
       sLookup (cancellation_path c3cache 12 "s1" false [c3state] ["/r/.DS_Store"]
          { new_searches := 1, resumed_searches := 0, skipped_cached := 0,
            found := 1, errors := 0 }).1.db.search_sessions "s1" =
         some { c3session with status := SessionStatus.Interrupted } ∧
       (cancellation_path c3cache 12 "s1" false [c3state] ["/r/.DS_Store"]
          { new_searches := 1, resumed_searches := 0, skipped_cached := 0,
            found := 1, errors := 0 }).1.db.work_queue = c3cache.db.work_queue)) :=
  ⟨rfl, rfl, by decide, by decide,
   C3_cancellation c3cache 12 "s1" false [c3state] ["/r/.DS_Store"]
     { new_searches := 1, resumed_searches := 0, skipped_cached := 0,
       found := 1, errors := 0 } c3session rfl rfl c3session (by decide) (by decide)⟩

/-- Witness for the amended claim C5 at a concrete open failure. -/
theorem C5_amended_witness :
    is_system_path "/t/b" = false ∧ (Except.ok false : Except String Bool) ≠ Except.ok true ∧
    (process_directory 0 "/t/b"
        { metadata := Except.ok true, symlink_meta := Except.ok false,
          read_dir := Except.error ("io") } true
      = { buffered := some
            { path := "/t/b", last_searched_at := 0, search_completed := false,
              ds_store_found := false, ds_store_deleted := false,
              error_message := some ("Failed to read directory: " ++ "io") },
          posted_subdirs := [], found := [], found_incr := 0, error_incr := 1,
          result := Except.ok () }) :=
  ⟨rfl, by decide,
    (C5_amended 0 "/t/b" "io" (Except.ok false) true rfl (by decide)).1⟩

end DDS
